import Mathlib

/-!
# Verification of the graphtotex expression-to-geometry engine

A shallow embedding of the core of the `graphtotex` repository:
the safety validator and expression preparers (`src/unnamed/part_002`,
`src/src/lib/mathParser3d.ts`), the adaptive curve sampler and implicit
contour extractor (`src/unnamed/part_002`), the TikZ symbolic transpilers
(`src/src/lib/tikzExpr.ts`, `src/src/lib/tikzExpr3d.ts`), and the 3D
camera projector (`src/src/components/GraphCanvas3D.tsx`).

JavaScript numbers are idealised as exact rationals `ℚ`; a JavaScript
`null` / `NaN` / non-finite result is a `none` of `Option ℚ`.  Strings are
lists of characters.  The external mathjs capabilities (`parse`, the
compiled evaluator, `toTex`) are abstracted as a record `MathCaps` of
functions supplied by the environment; everything written in the
repository itself is translated directly.
-/

namespace GraphToTex

/-- Strings, modelled as character lists so that the textual normalisation
of the repository can be reasoned about by structural induction. -/
abbrev Str := List Char

/-- JavaScript word character, the `\w` class used by the `\b` boundary of
the regexes `/\bln\s*\(/` and `/\by\b/` in `normalizeInput`/`prepareMath`. -/
def wordChar (c : Char) : Bool := c.isAlphanum || c = '_'

/-- Model of String.prototype.trim: drop whitespace from both ends. -/
def trimStr (l : Str) : Str :=
  ((l.dropWhile Char.isWhitespace).reverse.dropWhile Char.isWhitespace).reverse

/-- The rewrite `.replace(/\*\*/g, '^')` of `normalizeInput`. -/
def replaceStars : Str → Str
  | [] => []
  | c :: rest =>
    if c = '*' ∧ rest.head? = some '*' then '^' :: replaceStars rest.tail
    else c :: replaceStars rest
termination_by l => l.length
decreasing_by
  · simp only [List.length_cons, List.length_tail]
    omega
  · simp

/-- Whether `rest` continues a `/\bln\s*\(/` match whose `l` has been read:
an `n`, then whitespace, then `(`. -/
def lnTail (rest : Str) : Bool :=
  match rest with
  | 'n' :: r2 => (r2.dropWhile Char.isWhitespace).head? = some '('
  | _ => false

/-- What remains of `rest` after consuming `n`, the whitespace and `(`. -/
def lnDrop (rest : Str) : Str :=
  match rest with
  | _ :: r2 => (r2.dropWhile Char.isWhitespace).tail
  | [] => []

/-- The rewrite replacing each regex match of ln-whitespace-paren (with a
word boundary before the ln) by log and a paren, scanning left to right;
`prevW` records whether the previous character was a word character
(for the `\b` boundary; at the start of the string it is `false`). -/
def lnRewrite (prevW : Bool) : Str → Str
  | [] => []
  | c :: rest =>
    if c = 'l' ∧ prevW = false ∧ lnTail rest = true then
      'l' :: 'o' :: 'g' :: '(' :: lnRewrite false (lnDrop rest)
    else c :: lnRewrite (wordChar c) rest
termination_by l => l.length
decreasing_by
  · simp only [List.length_cons]
    have hld : (lnDrop rest).length ≤ rest.length := by
      cases rest with
      | nil => simp [lnDrop]
      | cons c r2 =>
        simp only [lnDrop, List.length_cons]
        have h1 := (List.dropWhile_sublist (l := r2) Char.isWhitespace).length_le
        have h2 := List.length_tail (r2.dropWhile Char.isWhitespace)
        omega
    omega
  · simp

/-- The test `/\by\b/.test(s)`: a `y` neither preceded nor followed by a
word character.  `prevW` is the word-character status of the previous
character (initially `false`). -/
def matchWordY (prevW : Bool) : Str → Bool
  | [] => false
  | c :: rest =>
    (c = 'y' && !prevW && !(rest.head?.elim false wordChar)) ||
      matchWordY (wordChar c) rest

/-- Model of the JavaScript split on the equals sign: the list of chunks
between the signs. -/
def splitOnEq : Str → List Str
  | [] => [[]]
  | c :: rest =>
    if c = '=' then [] :: splitOnEq rest
    else
      match splitOnEq rest with
      | [] => [[c]]
      | h :: t => (c :: h) :: t

/-- Function `normalizeInput` of `src/unnamed/part_002` (and re-exported to the 3D
preparer): trim, rewrite `**` to `^`, rewrite `ln(` to `log(`. -/
def normalizeInput (raw : Str) : Str :=
  lnRewrite false (replaceStars (trimStr raw))

/-- Substring test used only in theorem statements ("the reason names
`sin`", "the expression contains `deg(`"). -/
def leadsWith : Str → Str → Bool
  | [], _ => true
  | _ :: _, [] => false
  | a :: as, b :: bs => a = b && leadsWith as bs

/-- Whether `needle` occurs somewhere inside the second argument. -/
def strHas (needle : Str) : Str → Bool
  | [] => needle.isEmpty
  | c :: rest => leadsWith needle (c :: rest) || strHas needle rest

/-- Join a list of strings with a comma and a space, as the set join does
in the unknown-symbol error message. -/
def joinComma : List Str → Str
  | [] => []
  | [s] => s
  | s :: rest => s ++ (',' :: ' ' :: joinComma rest)

/-! ## The external mathjs AST

The repository treats the mathjs AST as an open, duck-typed tree whose
nodes carry a `type` string tag.  We model the node kinds that mathjs
produces; the kinds in `BLOCKED_NODE_TYPES` only matter through their tag,
so their payloads are kept as plain child lists. -/

inductive MathNode where
  | constantNode (value : Str)
  | symbolNode (name : Str)
  | parenthesisNode (content : MathNode)
  | operatorNode (fn : Str) (op : Str) (args : List MathNode)
  | functionNode (fn : MathNode) (args : List MathNode)
  | conditionalNode (condition trueExpr falseExpr : MathNode)
  | assignmentNode (object value : MathNode)
  | functionAssignmentNode (name : Str) (expr : MathNode)
  | accessorNode (object index : MathNode)
  | indexNode (dimensions : List MathNode)
  | rangeNode (start stop : MathNode)
  | objectNode (values : List MathNode)
  | arrayNode (items : List MathNode)
  | blockNode (blocks : List MathNode)

namespace MathNode

/-- The `type` tag that mathjs exposes on every node. -/
def nodeType : MathNode → Str
  | constantNode _ => "ConstantNode".data
  | symbolNode _ => "SymbolNode".data
  | parenthesisNode _ => "ParenthesisNode".data
  | operatorNode _ _ _ => "OperatorNode".data
  | functionNode _ _ => "FunctionNode".data
  | conditionalNode _ _ _ => "ConditionalNode".data
  | assignmentNode _ _ => "AssignmentNode".data
  | functionAssignmentNode _ _ => "FunctionAssignmentNode".data
  | accessorNode _ _ => "AccessorNode".data
  | indexNode _ => "IndexNode".data
  | rangeNode _ _ => "RangeNode".data
  | objectNode _ => "ObjectNode".data
  | arrayNode _ => "ArrayNode".data
  | blockNode _ => "BlockNode".data

/-- Model of reading the name off the fn field of a FunctionNode: the name
of the callee when the callee is a plain symbol. -/
def fnNameOf : MathNode → Option Str
  | symbolNode name => some name
  | _ => none

end MathNode

open MathNode

/-- Set `BLOCKED_NODE_TYPES` of `src/unnamed/part_002` lines 6-15. -/
def BLOCKED_NODE_TYPES : List Str :=
  ["AssignmentNode".data, "FunctionAssignmentNode".data, "AccessorNode".data,
   "IndexNode".data, "RangeNode".data, "ObjectNode".data, "ArrayNode".data,
   "BlockNode".data]

/-- Set `BASE_ALLOWED_SYMBOLS` (explicit 2D mode). -/
def BASE_ALLOWED_SYMBOLS : List Str := ["x".data, "pi".data, "e".data]

/-- Set `IMPLICIT_ALLOWED_SYMBOLS` (implicit 2D mode). -/
def IMPLICIT_ALLOWED_SYMBOLS : List Str := ["x".data, "y".data, "pi".data, "e".data]

/-- Set `ALLOWED_SYMBOLS` of `src/src/lib/mathParser3d.ts` (3D surface mode). -/
def ALLOWED_SYMBOLS_3D : List Str := ["x".data, "y".data, "pi".data, "e".data]

/-- Set `ALLOWED_FUNCTIONS`, identical in the 2D and 3D validators. -/
def ALLOWED_FUNCTIONS : List Str :=
  ["sin".data, "cos".data, "tan".data, "asin".data, "acos".data, "atan".data,
   "sqrt".data, "abs".data, "log".data, "log10".data, "exp".data]

/-- Error template naming an unsupported (blocked) node type. -/
def blockedMsg (ty : Str) : Str := "Unsupported expression feature: ".data ++ ty

/-- Error template naming an unsupported function. -/
def fnMsg (name : Str) : Str :=
  "Unsupported function \"".data ++ name ++ "\".".data

/-- Error template naming an unknown symbol and listing the allowed ones. -/
def symMsg (name : Str) (allowed : List Str) : Str :=
  "Unknown symbol \"".data ++ name ++ "\". Use ".data ++ joinComma allowed ++
    " as symbols.".data

/-- Left-biased choice, the error latch of the `traverse` callback: once an
error is recorded, later visits are ignored. -/
def orO (a b : Option Str) : Option Str :=
  match a with
  | some e => some e
  | none => b

mutual

/-- The traversal of `validateNode`, one node at a time.  `fnPos` is true exactly
when this node is the `fn` child of a `FunctionNode` (the test comparing
the parent type tag with FunctionNode and the parent fn field with the child); such a
symbol skips the allowed-symbol check.  Traversal is pre-order and the
first recorded error wins, exactly as the `error` latch in the source. -/
def vNode (allowed : List Str) (fnPos : Bool) (n : MathNode) : Option Str :=
  if BLOCKED_NODE_TYPES.contains n.nodeType then some (blockedMsg n.nodeType)
  else
    match n with
    | functionNode fn args =>
      match fnNameOf fn with
      | some name =>
        if ALLOWED_FUNCTIONS.contains name then
          orO (vNode allowed true fn) (vList allowed args)
        else some (fnMsg name)
      | none => some (fnMsg "unknown".data)
    | symbolNode name =>
      if fnPos then none
      else if allowed.contains name then none
      else some (symMsg name allowed)
    | parenthesisNode content => vNode allowed false content
    | operatorNode _ _ args => vList allowed args
    | conditionalNode c t f =>
      orO (vNode allowed false c) (orO (vNode allowed false t) (vNode allowed false f))
    | _ => none

/-- First validation error among a list of sibling nodes, in order. -/
def vList (allowed : List Str) (l : List MathNode) : Option Str :=
  match l with
  | [] => none
  | h :: t => orO (vNode allowed false h) (vList allowed t)

end

/-- Function `validateNode` of `src/unnamed/part_002` lines 49-91: walk the parsed
AST and return the first error, or `null`. -/
def validateNode (node : MathNode) (allowedSymbols : List Str) : Option Str :=
  vNode allowedSymbols false node

mutual

/-- The blocklist characterisation of validity actually enforced by
`validateNode`: no node of a blocked type, every called function name
whitelisted (and a plain symbol), every symbol outside function-name
position in the allowed set. -/
def goodN (allowed : List Str) (fnPos : Bool) (n : MathNode) : Bool :=
  !(BLOCKED_NODE_TYPES.contains n.nodeType) &&
    match n with
    | functionNode fn args =>
      (match fnNameOf fn with
       | some name => ALLOWED_FUNCTIONS.contains name
       | none => false) &&
      goodN allowed true fn && goodL allowed args
    | symbolNode name => fnPos || allowed.contains name
    | parenthesisNode content => goodN allowed false content
    | operatorNode _ _ args => goodL allowed args
    | conditionalNode c t f =>
      goodN allowed false c && goodN allowed false t && goodN allowed false f
    | _ => true

/-- Predicate `goodN` over a list of sibling nodes. -/
def goodL (allowed : List Str) (l : List MathNode) : Bool :=
  match l with
  | [] => true
  | h :: t => goodN allowed false h && goodL allowed t

end

mutual

/-- The allowlist characterisation written in the specification: every node
is a constant, a symbol in the allowed set (function-name positions
excepted), a parenthesis node, an arithmetic operator, or a whitelisted
single-symbol function call; all other node kinds are invalid. -/
def specAllowGood (allowed : List Str) (fnPos : Bool) (n : MathNode) : Bool :=
  match n with
  | constantNode _ => true
  | symbolNode name => fnPos || allowed.contains name
  | parenthesisNode content => specAllowGood allowed false content
  | operatorNode fn _ args =>
    (["add".data, "subtract".data, "multiply".data, "divide".data,
      "pow".data, "unaryMinus".data, "unaryPlus".data].contains fn) &&
    specAllowGoodL allowed args
  | functionNode fn args =>
    (match fnNameOf fn with
     | some name => ALLOWED_FUNCTIONS.contains name
     | none => false) &&
    specAllowGoodL allowed args
  | _ => false

/-- Predicate `specAllowGood` over a list of operands. -/
def specAllowGoodL (allowed : List Str) (l : List MathNode) : Bool :=
  match l with
  | [] => true
  | h :: t => specAllowGood allowed false h && specAllowGoodL allowed t

end

mutual

/-- Whether the tree contains any node of a blocked structural type
(assignment, indexing, array, ...), anywhere. -/
def containsBlocked (n : MathNode) : Bool :=
  BLOCKED_NODE_TYPES.contains n.nodeType ||
    match n with
    | functionNode fn args => containsBlocked fn || containsBlockedL args
    | parenthesisNode content => containsBlocked content
    | operatorNode _ _ args => containsBlockedL args
    | conditionalNode c t f =>
      containsBlocked c || containsBlocked t || containsBlocked f
    | _ => false

/-- Predicate `containsBlocked` over a list of nodes. -/
def containsBlockedL (l : List MathNode) : Bool :=
  match l with
  | [] => false
  | h :: t => containsBlocked h || containsBlockedL t

end

/-! ## The expression preparers -/

/-- A value produced by the external compiled evaluator: a finite number, a
non-finite number (`NaN`/`Infinity`), a complex value with finite parts, or
anything else. -/
inductive JsValue where
  | num (q : ℚ)
  | nonFiniteNum
  | cplx (re im : ℚ)
  | badValue

/-- Function `toFiniteNumber`: accept a finite number, or a complex value whose
imaginary part has magnitude below `1e-10` (dropping it); otherwise `null`. -/
def toFiniteNumber : JsValue → Option ℚ
  | .num q => some q
  | .cplx re im => if |im| < 1 / 10000000000 then some re else none
  | _ => none

/-- The external mathjs capabilities, exactly the boundary the
specification declares: parse text into an AST or throw, evaluate a
compiled AST at bindings `{x}` or `{x, y}` or throw, and render to TeX.
The repository never looks inside these. -/
structure MathCaps where
  parse : Str → Except Str MathNode
  evalc1 : MathNode → ℚ → Except Unit JsValue
  evalc2 : MathNode → ℚ → ℚ → Except Unit JsValue
  toTex : MathNode → Str

/-- The `mode` field of `PreparedMath`. -/
inductive MMode where
  | explicit
  | implicit
deriving DecidableEq

/-- Record `PreparedMath` of `src/unnamed/part_002`. -/
structure PreparedMath where
  mode : MMode
  normalizedInput : Str
  latex : Option Str
  error : Option Str
  evaluator : Option (ℚ → Option ℚ)
  implicitEvaluator : Option (ℚ → ℚ → Option ℚ)
  node : Option MathNode

/-- The evaluator closure relevant to the prepared mode: the 1-argument
`evaluator` for explicit entries, the 2-argument `implicitEvaluator` for
implicit ones. -/
def relevantEvalSome (r : PreparedMath) : Bool :=
  match r.mode with
  | .explicit => r.evaluator.isSome
  | .implicit => r.implicitEvaluator.isSome

/-- A mathjs capability record whose parser always throws; the preparer
branches exercised with it never reach the parser. -/
def trivialCaps : MathCaps :=
  ⟨fun _ => .error "Failed to parse expression.".data,
   fun _ _ => .error (), fun _ _ _ => .error (), fun _ => []⟩

/-- The AST mathjs actually produces for the text `(x) - (1)`. -/
def xMinusOneNode : MathNode :=
  .operatorNode "subtract".data "-".data
    [.parenthesisNode (.symbolNode "x".data),
     .parenthesisNode (.constantNode "1".data)]

/-- A capability record that parses exactly the text `(x) - (1)` (to the
AST mathjs produces for it) and throws on anything else. -/
def capsParenSub : MathCaps :=
  ⟨fun s => if s = "(x) - (1)".data then .ok xMinusOneNode
            else .error "Failed to parse expression.".data,
   fun _ _ => .ok (.num 0), fun _ x y => .ok (.num (x - y)),
   fun _ => "x - 1".data⟩

/-- Function `prepareExplicit` of `src/unnamed/part_002` lines 108-158. -/
def prepareExplicit (caps : MathCaps) (input : Str) : PreparedMath :=
  match caps.parse input with
  | .error message =>
    ⟨.explicit, input, none, some message, none, none, none⟩
  | .ok node =>
    match validateNode node BASE_ALLOWED_SYMBOLS with
    | some validationError =>
      ⟨.explicit, input, none, some validationError, none, none, none⟩
    | none =>
      ⟨.explicit, input, some (caps.toTex node), none,
        some (fun x =>
          match caps.evalc1 node x with
          | .ok value => toFiniteNumber value
          | .error _ => none),
        none, some node⟩

/-- The text of the form "(left) - (right)" that is handed to the parser
by the function below. -/
def implicitText (left right : Str) : Str :=
  "(".data ++ left ++ ") - (".data ++ right ++ ")".data

/-- Function `prepareImplicit` of `src/unnamed/part_002` lines 160-208: parse
`(left) - (right)` and compile a two-variable zero-contour evaluator. -/
def prepareImplicit (caps : MathCaps) (input left right : Str) : PreparedMath :=
  match caps.parse (implicitText left right) with
  | .error message =>
    ⟨.implicit, input, some input, some message, none, none, none⟩
  | .ok node =>
    match validateNode node IMPLICIT_ALLOWED_SYMBOLS with
    | some validationError =>
      ⟨.implicit, input, some input, some validationError, none, none, none⟩
    | none =>
      ⟨.implicit, input, some input, none, none,
        some (fun x y =>
          match caps.evalc2 node x y with
          | .ok value => toFiniteNumber value
          | .error _ => none),
        some node⟩

/-- Function `prepareMath` of `src/unnamed/part_002` lines 210-270: normalise,
classify on `=`, and dispatch to the explicit or implicit preparer. -/
def prepareMath (caps : MathCaps) (rawInput : Str) : PreparedMath :=
  let normalizedInput := normalizeInput rawInput
  if normalizedInput = [] then
    ⟨.explicit, normalizedInput, none, none, none, none, none⟩
  else
    match splitOnEq normalizedInput with
    | [l0, r0] =>
      let left := trimStr l0
      let right := trimStr r0
      if left = [] ∨ right = [] then
        ⟨.implicit, normalizedInput, some normalizedInput,
          some "Both sides of the equation must be non-empty.".data,
          none, none, none⟩
      else if left = "y".data ∧ matchWordY false right = false then
        prepareExplicit caps right
      else if right = "y".data ∧ matchWordY false left = false then
        prepareExplicit caps left
      else
        prepareImplicit caps normalizedInput left right
    | _ :: _ :: _ :: _ =>
      ⟨.implicit, normalizedInput, some normalizedInput,
        some "Use exactly one equals sign in an equation.".data,
        none, none, none⟩
    | _ => prepareExplicit caps normalizedInput

/-- Record `PreparedSurfaceMath` of `src/src/lib/mathParser3d.ts`. -/
structure PreparedSurfaceMath where
  normalizedInput : Str
  latex : Option Str
  error : Option Str
  evaluator : Option (ℚ → ℚ → Option ℚ)
  node : Option MathNode

/-- Function `prepareMath3D` of `src/src/lib/mathParser3d.ts` lines 99-165: surfaces
are bare `f(x, y)`; any `=` is an error. -/
def prepareMath3D (caps : MathCaps) (rawInput : Str) : PreparedSurfaceMath :=
  let normalizedInput := normalizeInput rawInput
  if normalizedInput = [] then
    ⟨normalizedInput, none, none, none, none⟩
  else if normalizedInput.contains '=' then
    ⟨normalizedInput, some normalizedInput,
      some "3D mode expects z = f(x, y) entered as f(x, y) without an equals sign.".data,
      none, none⟩
  else
    match caps.parse normalizedInput with
    | .error message => ⟨normalizedInput, none, some message, none, none⟩
    | .ok node =>
      match validateNode node ALLOWED_SYMBOLS_3D with
      | some validationError =>
        ⟨normalizedInput, none, some validationError, none, none⟩
      | none =>
        ⟨normalizedInput, some ("z = ".data ++ caps.toTex node), none,
          some (fun x y =>
            match caps.evalc2 node x y with
            | .ok value => toFiniteNumber value
            | .error _ => none),
          some node⟩

/-! ## The adaptive curve sampler -/

/-- A 2D world point. -/
structure Pt where
  x : ℚ
  y : ℚ
deriving DecidableEq, Repr

/-- The 2D viewport rectangle. -/
structure Viewport where
  xMin : ℚ
  xMax : ℚ
  yMin : ℚ
  yMax : ℚ
deriving DecidableEq, Repr

/-- The clamp of the requested sample count to at least 32 and at most
5000 after rounding; `round` in Lean is the floor of q plus one half,
which matches the half-up behaviour of the JavaScript rounding. -/
def clampedSamples (samples : ℚ) : ℕ :=
  (max 32 (min 5000 (round samples))).toNat

/-- The uniform abscissa `xMin + (i / samples) * (xMax - xMin)` of the
sampling loop. -/
def gridX (xMin xMax : ℚ) (n i : ℕ) : ℚ :=
  xMin + ((i : ℚ) / (n : ℚ)) * (xMax - xMin)

/-- The discontinuity-detection threshold, eight times the larger of 1e-6
and the vertical span of the viewport. -/
def jumpThreshold (viewport : Viewport) : ℚ :=
  max (1 / 1000000) (viewport.yMax - viewport.yMin) * 8

/-- The mutable loop state of `sampleExpression`: closed segments, the open
segment, and the previously accepted ordinate. -/
structure SState where
  segments : List (List Pt)
  current : List Pt
  prevY : Option ℚ

/-- Pushing the open segment when it has more than one point, else
dropping it (`if (currentSegment.length > 1) segments.push(...)`). -/
def closeSeg (segments : List (List Pt)) (current : List Pt) : List (List Pt) :=
  if 1 < current.length then segments ++ [current] else segments

/-- One iteration of the sampling loop at index `i`. -/
def sampleStep (evaluator : ℚ → Option ℚ) (xMin xMax : ℚ) (n : ℕ)
    (thr maxAbsY : ℚ) (st : SState) (i : ℕ) : SState :=
  let x := gridX xMin xMax n i
  match evaluator x with
  | none => ⟨closeSeg st.segments st.current, [], none⟩
  | some y =>
    if maxAbsY < |y| then ⟨closeSeg st.segments st.current, [], none⟩
    else
      match st.prevY with
      | some prevY =>
        if thr < |y - prevY| then
          ⟨closeSeg st.segments st.current, [⟨x, y⟩], some y⟩
        else ⟨st.segments, st.current ++ [⟨x, y⟩], some y⟩
      | none => ⟨st.segments, st.current ++ [⟨x, y⟩], some y⟩

/-- Function `sampleExpression` of `src/unnamed/part_002` lines 290-336: step
uniformly across the domain, reject `null`/overflowing values, break
segments at large jumps, and emit only segments of at least two points. -/
def sampleExpression (evaluator : ℚ → Option ℚ) (xMin xMax : ℚ)
    (samples : ℚ) (viewport : Viewport) (maxAbsY : ℚ := 1000000) :
    List (List Pt) :=
  let n := clampedSamples samples
  let thr := jumpThreshold viewport
  let final := (List.range (n + 1)).foldl
    (sampleStep evaluator xMin xMax n thr maxAbsY) ⟨[], [], none⟩
  closeSeg final.segments final.current

/-- Specification predicate: `p` is an accepted sample of the grid — its
abscissa is one of the uniform sample positions, the evaluator accepts it,
and its magnitude is within the cutoff. -/
def goodPt (evaluator : ℚ → Option ℚ) (xMin xMax : ℚ) (n : ℕ) (maxAbsY : ℚ)
    (p : Pt) : Prop :=
  ∃ i, i ≤ n ∧ p.x = gridX xMin xMax n i ∧ evaluator p.x = some p.y ∧
    |p.y| ≤ maxAbsY

/-- Specification predicate: consecutive points of one segment never jump
by more than the threshold. -/
def jumpRel (thr : ℚ) (p q : Pt) : Prop := |q.y - p.y| ≤ thr

/-- The total number of points across a list of segments. -/
def segTotal (segments : List (List Pt)) : ℕ := (segments.map List.length).sum

/-- The loop invariant of `sampleExpression`: every closed segment has at
least two accepted, jump-bounded points; the open segment is accepted and
jump-bounded; and `prevY` is the ordinate of the open segment's last
point. -/
def SInv (evaluator : ℚ → Option ℚ) (xMin xMax : ℚ) (n : ℕ)
    (thr maxAbsY : ℚ) (st : SState) : Prop :=
  (∀ s ∈ st.segments, 2 ≤ s.length ∧
    (∀ p ∈ s, goodPt evaluator xMin xMax n maxAbsY p) ∧
    List.Chain' (jumpRel thr) s) ∧
  (∀ p ∈ st.current, goodPt evaluator xMin xMax n maxAbsY p) ∧
  List.Chain' (jumpRel thr) st.current ∧
  st.prevY = st.current.getLast?.map Pt.y

/-! ## The implicit contour extractor (marching squares) -/

/-- Function `edgeIntersection` of `src/unnamed/part_002` lines 343-380.  An
undefined (`NaN`-marked) endpoint value is a `none`, mirroring the
`Number.isFinite` guards. -/
def edgeIntersection (x1 y1 : ℚ) (v1o : Option ℚ) (x2 y2 : ℚ)
    (v2o : Option ℚ) : Option Pt :=
  match v1o, v2o with
  | some v1, some v2 =>
    if |v1| < 1 / 1000000000000 ∧ |v2| < 1 / 1000000000000 then none
    else if |v1| < 1 / 1000000000000 then some ⟨x1, y1⟩
    else if |v2| < 1 / 1000000000000 then some ⟨x2, y2⟩
    else if (0 < v1 ∧ 0 < v2) ∨ (v1 < 0 ∧ v2 < 0) then none
    else
      let t := v1 / (v1 - v2)
      if t < 0 ∨ 1 < t then none
      else some ⟨x1 + t * (x2 - x1), y1 + t * (y2 - y1)⟩
  | _, _ => none

/-- The defined edge crossings of one grid cell, pushed in the order of
the source: bottom, right, top, left. -/
def cellCrossings (x0 x1 y0 y1 : ℚ) (v00 v10 v11 v01 : Option ℚ) : List Pt :=
  (edgeIntersection x0 y0 v00 x1 y0 v10).toList ++
    (edgeIntersection x1 y0 v10 x1 y1 v11).toList ++
    (edgeIntersection x1 y1 v11 x0 y1 v01).toList ++
    (edgeIntersection x0 y1 v01 x0 y0 v00).toList

/-- The per-cell segment emission of `sampleImplicitContours` lines
427-445: two crossings give one segment, four are disambiguated by the
cell-centre value, anything else gives nothing. -/
def processCell (evaluator : ℚ → ℚ → Option ℚ) (x0 x1 y0 y1 : ℚ)
    (v00 v10 v11 v01 : Option ℚ) : List (List Pt) :=
  match cellCrossings x0 x1 y0 y1 v00 v10 v11 v01 with
  | [a, b] => [[a, b]]
  | [a, b, c, d] =>
    match evaluator ((x0 + x1) / 2) ((y0 + y1) / 2) with
    | some centerValue =>
      if 0 < centerValue then [[a, d], [b, c]]
      else [[a, b], [c, d]]
    | none => []
  | _ => []

/-- Function `sampleImplicitContours` of `src/unnamed/part_002` lines 382-450.  The
source computes the grid resolution as
`clamp(round(sqrt(max(1, samples)) * 2.2), 30, 180)` with the host's
floating-point square root; that external computation is abstracted as the
`resolution` argument.  Grid values outside the cutoff or undefined are
stored as the `NaN` sentinel, modelled as `none`. -/
def sampleImplicitContours (evaluator : ℚ → ℚ → Option ℚ)
    (viewport : Viewport) (resolution : ℕ) (maxAbsValue : ℚ := 100000000) :
    List (List Pt) :=
  let nx := resolution
  let ny := resolution
  let dx := (viewport.xMax - viewport.xMin) / nx
  let dy := (viewport.yMax - viewport.yMin) / ny
  let val : ℕ → ℕ → Option ℚ := fun ix iy =>
    match evaluator (viewport.xMin + (ix : ℚ) * dx) (viewport.yMin + (iy : ℚ) * dy) with
    | none => none
    | some value => if maxAbsValue < |value| then none else some value
  ((List.range ny).map (fun (iy : ℕ) =>
    ((List.range nx).map (fun (ix : ℕ) =>
      processCell evaluator
        (viewport.xMin + (ix : ℚ) * dx) (viewport.xMin + (ix : ℚ) * dx + dx)
        (viewport.yMin + (iy : ℚ) * dy) (viewport.yMin + (iy : ℚ) * dy + dy)
        (val ix iy) (val (ix + 1) iy) (val (ix + 1) (iy + 1))
        (val ix (iy + 1)))).flatten)).flatten

/-! ## The symbolic transpilers -/

/-- Record `TikzExprResult` of `src/src/lib/tikzExpr.ts`. -/
structure TikzExprResult where
  ok : Bool
  expression : Option Str
  reason : Option Str
deriving DecidableEq, Repr

namespace Tikz

/-- Set `UNSUPPORTED_TRIG` of `src/src/lib/tikzExpr.ts`. -/
def UNSUPPORTED_TRIG : List Str :=
  ["sin".data, "cos".data, "tan".data, "asin".data, "acos".data, "atan".data]

/-- Set `SUPPORTED_FUNCTIONS` of `src/src/lib/tikzExpr.ts`. -/
def SUPPORTED_FUNCTIONS : List Str :=
  ["sqrt".data, "abs".data, "exp".data, "log".data, "ln".data]

/-- Function `wrapBinary`: binary operation with both operands parenthesised. -/
def wrapBinary (op : Char) (left right : Str) : Str :=
  '(' :: left ++ ')' :: op :: '(' :: right ++ [')']

/-- Function `convertNode` of `src/src/lib/tikzExpr.ts` lines 16-141 (2D mode):
trig is refused with a reason naming the function, powers become
2-argument `pow` calls, `log`/`ln` become `ln`. -/
def convertNode (node : MathNode) : TikzExprResult :=
  match node with
  | .parenthesisNode content => convertNode content
  | .constantNode value =>
    if value = "pi".data then ⟨true, some "pi".data, none⟩
    else if value = "e".data then ⟨true, some "exp(1)".data, none⟩
    else ⟨true, some value, none⟩
  | .symbolNode name =>
    if name = "x".data then ⟨true, some "\\x".data, none⟩
    else if name = "pi".data then ⟨true, some "pi".data, none⟩
    else if name = "e".data then ⟨true, some "exp(1)".data, none⟩
    else ⟨false, none, some ("Unsupported symbol ".data ++ name)⟩
  | .operatorNode fn op args =>
    match args with
    | [arg0] =>
      if op = "-".data then
        match convertNode arg0 with
        | ⟨true, some e, _r⟩ => ⟨true, some ('-' :: '(' :: e ++ [')']), none⟩
        | other => other
      else ⟨false, none, some "Only binary operators are supported.".data⟩
    | [arg0, arg1] =>
      match convertNode arg0 with
      | ⟨true, some le, _⟩ =>
        match convertNode arg1 with
        | ⟨true, some re, _⟩ =>
          if fn = "add".data then ⟨true, some (wrapBinary '+' le re), none⟩
          else if fn = "subtract".data then ⟨true, some (wrapBinary '-' le re), none⟩
          else if fn = "multiply".data then ⟨true, some (wrapBinary '*' le re), none⟩
          else if fn = "divide".data then ⟨true, some (wrapBinary '/' le re), none⟩
          else if fn = "pow".data then
            ⟨true, some ("pow(".data ++ le ++ ',' :: re ++ [')']), none⟩
          else ⟨false, none, some ("Unsupported operator ".data ++ op)⟩
        | right => right
      | left => left
    | _ => ⟨false, none, some "Only binary operators are supported.".data⟩
  | .functionNode fn args =>
    let fnName := (fnNameOf fn).getD []
    if UNSUPPORTED_TRIG.contains fnName then
      ⟨false, none,
        some ("Trig/inverse trig export is emitted as coordinates for safety (".data ++
          fnName ++ ").".data)⟩
    else if ¬SUPPORTED_FUNCTIONS.contains fnName then
      ⟨false, none, some ("Unsupported function ".data ++ fnName)⟩
    else
      match args with
      | [arg0] =>
        match convertNode arg0 with
        | ⟨true, some e, _⟩ =>
          if fnName = "log".data ∨ fnName = "ln".data then
            ⟨true, some ("ln(".data ++ e ++ [')']), none⟩
          else ⟨true, some (fnName ++ '(' :: e ++ [')']), none⟩
        | arg => arg
      | _ =>
        ⟨false, none, some (fnName ++ " with multiple arguments is unsupported.".data)⟩
  | other => ⟨false, none, some ("Unsupported node type ".data ++ other.nodeType)⟩

/-- Function `convertAstToTikz` of `src/src/lib/tikzExpr.ts`. -/
def convertAstToTikz (node : Option MathNode) : TikzExprResult :=
  match node with
  | none => ⟨false, none, some "No parsed expression.".data⟩
  | some n => convertNode n

end Tikz

namespace Tikz3D

/-- Function `convertNode` of `src/src/lib/tikzExpr3d.ts` lines 13-134 (3D mode):
trig is supported through degree conversion (`deg(...)` on the argument
for `sin`/`cos`/`tan`, `* pi/180` on the result for inverse trig),
`log10` expands to `ln(x)/ln(10)`. -/
def convertNode (node : MathNode) : TikzExprResult :=
  match node with
  | .parenthesisNode content => convertNode content
  | .constantNode value =>
    if value = "pi".data then ⟨true, some "pi".data, none⟩
    else if value = "e".data then ⟨true, some "exp(1)".data, none⟩
    else ⟨true, some value, none⟩
  | .symbolNode name =>
    if name = "x".data ∨ name = "y".data then ⟨true, some name, none⟩
    else if name = "pi".data then ⟨true, some "pi".data, none⟩
    else if name = "e".data then ⟨true, some "exp(1)".data, none⟩
    else ⟨false, none, some ("Unsupported symbol ".data ++ name)⟩
  | .operatorNode fn op args =>
    match args with
    | [arg0] =>
      if op = "-".data then
        match convertNode arg0 with
        | ⟨true, some e, _r⟩ => ⟨true, some ('-' :: '(' :: e ++ [')']), none⟩
        | other => other
      else ⟨false, none, some "Only binary operators are supported.".data⟩
    | [arg0, arg1] =>
      match convertNode arg0 with
      | ⟨true, some le, _⟩ =>
        match convertNode arg1 with
        | ⟨true, some re, _⟩ =>
          if fn = "add".data then ⟨true, some (Tikz.wrapBinary '+' le re), none⟩
          else if fn = "subtract".data then ⟨true, some (Tikz.wrapBinary '-' le re), none⟩
          else if fn = "multiply".data then ⟨true, some (Tikz.wrapBinary '*' le re), none⟩
          else if fn = "divide".data then ⟨true, some (Tikz.wrapBinary '/' le re), none⟩
          else if fn = "pow".data then
            ⟨true, some ("pow(".data ++ le ++ ',' :: re ++ [')']), none⟩
          else ⟨false, none, some ("Unsupported operator ".data ++ op)⟩
        | right => right
      | left => left
    | _ => ⟨false, none, some "Only binary operators are supported.".data⟩
  | .functionNode fn args =>
    let fnName := (fnNameOf fn).getD []
    match args with
    | [arg0] =>
      match convertNode arg0 with
      | ⟨true, some e, _⟩ =>
        if fnName = "sin".data ∨ fnName = "cos".data ∨ fnName = "tan".data then
          ⟨true, some (fnName ++ "(deg(".data ++ e ++ "))".data), none⟩
        else if fnName = "asin".data ∨ fnName = "acos".data ∨ fnName = "atan".data then
          ⟨true, some ('(' :: fnName ++ '(' :: e ++ "))*pi/180".data), none⟩
        else if fnName = "sqrt".data ∨ fnName = "abs".data ∨ fnName = "exp".data then
          ⟨true, some (fnName ++ '(' :: e ++ [')']), none⟩
        else if fnName = "log".data then
          ⟨true, some ("ln(".data ++ e ++ [')']), none⟩
        else if fnName = "log10".data then
          ⟨true, some ("(ln(".data ++ e ++ ")/ln(10))".data), none⟩
        else ⟨false, none, some ("Unsupported function ".data ++ fnName)⟩
      | arg => arg
    | _ =>
      ⟨false, none, some (fnName ++ " with multiple arguments is unsupported.".data)⟩
  | other => ⟨false, none, some ("Unsupported node type ".data ++ other.nodeType)⟩

/-- Function `convertAstToTikz3D` of `src/src/lib/tikzExpr3d.ts`. -/
def convertAstToTikz3D (node : Option MathNode) : TikzExprResult :=
  match node with
  | none => ⟨false, none, some "No parsed expression.".data⟩
  | some n => convertNode n

end Tikz3D

/-! ## The 3D camera projector -/

/-- The 3D viewport and camera.  `yaw` and `pitch` enter the projector only
through their sine and cosine, computed once per frame by the host's
floating-point library; those four precomputed values are passed
explicitly below. -/
structure Viewport3D where
  xMin : ℚ
  xMax : ℚ
  yMin : ℚ
  yMax : ℚ
  zMin : ℚ
  zMax : ℚ
  distance : ℚ

/-- A projected screen point with its depth key. -/
structure ScreenPoint where
  px : ℚ
  py : ℚ
  depth : ℚ
deriving DecidableEq, Repr

/-- The rotated depth `zRot` of a world point: box-centre translation,
normalisation by `2 / maxSpan`, yaw rotation, then pitch rotation. -/
def rotatedZ (vp : Viewport3D) (cosYaw sinYaw cosPitch sinPitch : ℚ)
    (x y z : ℚ) : ℚ :=
  let xCenter := (vp.xMin + vp.xMax) / 2
  let yCenter := (vp.yMin + vp.yMax) / 2
  let zCenter := (vp.zMin + vp.zMax) / 2
  let xSpan := max (1 / 1000000000) (vp.xMax - vp.xMin)
  let ySpan := max (1 / 1000000000) (vp.yMax - vp.yMin)
  let zSpan := max (1 / 1000000000) (vp.zMax - vp.zMin)
  let maxSpan := max xSpan (max ySpan zSpan)
  let normalize := 2 / maxSpan
  let nx := (x - xCenter) * normalize
  let ny := (y - yCenter) * normalize
  let nz := (z - zCenter) * normalize
  let yYaw := nx * sinYaw + ny * cosYaw
  let zYaw := nz
  yYaw * sinPitch + zYaw * cosPitch

/-- Function `createProjector` of `src/src/components/GraphCanvas3D.tsx` lines
79-125, applied to one world point: `null` models the behind-camera
rejection. -/
def createProjector (vp : Viewport3D) (cosYaw sinYaw cosPitch sinPitch : ℚ)
    (width height : ℚ) (x y z : ℚ) : Option ScreenPoint :=
  let xCenter := (vp.xMin + vp.xMax) / 2
  let yCenter := (vp.yMin + vp.yMax) / 2
  let zCenter := (vp.zMin + vp.zMax) / 2
  let xSpan := max (1 / 1000000000) (vp.xMax - vp.xMin)
  let ySpan := max (1 / 1000000000) (vp.yMax - vp.yMin)
  let zSpan := max (1 / 1000000000) (vp.zMax - vp.zMin)
  let maxSpan := max xSpan (max ySpan zSpan)
  let normalize := 2 / maxSpan
  let cx := width / 2
  let cy := height / 2
  let scale := min width height * (9 / 20)
  let nx := (x - xCenter) * normalize
  let ny := (y - yCenter) * normalize
  let nz := (z - zCenter) * normalize
  let xYaw := nx * cosYaw - ny * sinYaw
  let yYaw := nx * sinYaw + ny * cosYaw
  let zYaw := nz
  let yRot := yYaw * cosPitch - zYaw * sinPitch
  let zRot := rotatedZ vp cosYaw sinYaw cosPitch sinPitch x y z
  let distanceFromCamera := vp.distance - zRot
  if distanceFromCamera ≤ 2 / 25 then none
  else
    let perspective := 1 / distanceFromCamera
    some ⟨cx + xYaw * perspective * scale, cy - yRot * perspective * scale, zRot⟩

/-! ## Lemmas about the safety validator -/

theorem orO_eq_none {a b : Option Str} : orO a b = none ↔ a = none ∧ b = none := by
  cases a <;> simp [orO]

theorem vNode_constant (allowed : List Str) (fnPos : Bool) (v : Str) :
    vNode allowed fnPos (constantNode v) = none := rfl

theorem vNode_symbol (allowed : List Str) (fnPos : Bool) (name : Str) :
    vNode allowed fnPos (symbolNode name) =
      if fnPos then none
      else if allowed.contains name then none else some (symMsg name allowed) := rfl

theorem vNode_paren (allowed : List Str) (fnPos : Bool) (content : MathNode) :
    vNode allowed fnPos (parenthesisNode content) = vNode allowed false content := rfl

theorem vNode_operator (allowed : List Str) (fnPos : Bool) (fn op : Str)
    (args : List MathNode) :
    vNode allowed fnPos (operatorNode fn op args) = vList allowed args := rfl

theorem vNode_function (allowed : List Str) (fnPos : Bool) (fn : MathNode)
    (args : List MathNode) :
    vNode allowed fnPos (functionNode fn args) =
      match fnNameOf fn with
      | some name =>
        if ALLOWED_FUNCTIONS.contains name then
          orO (vNode allowed true fn) (vList allowed args)
        else some (fnMsg name)
      | none => some (fnMsg "unknown".data) := rfl

theorem vNode_conditional (allowed : List Str) (fnPos : Bool) (c t f : MathNode) :
    vNode allowed fnPos (conditionalNode c t f) =
      orO (vNode allowed false c)
        (orO (vNode allowed false t) (vNode allowed false f)) := rfl

theorem goodN_constant (allowed : List Str) (fnPos : Bool) (v : Str) :
    goodN allowed fnPos (constantNode v) = true := rfl

theorem goodN_symbol (allowed : List Str) (fnPos : Bool) (name : Str) :
    goodN allowed fnPos (symbolNode name) = (fnPos || allowed.contains name) := rfl

theorem goodN_paren (allowed : List Str) (fnPos : Bool) (content : MathNode) :
    goodN allowed fnPos (parenthesisNode content) = goodN allowed false content := rfl

theorem goodN_operator (allowed : List Str) (fnPos : Bool) (fn op : Str)
    (args : List MathNode) :
    goodN allowed fnPos (operatorNode fn op args) = goodL allowed args := rfl

theorem goodN_function (allowed : List Str) (fnPos : Bool) (fn : MathNode)
    (args : List MathNode) :
    goodN allowed fnPos (functionNode fn args) =
      ((match fnNameOf fn with
        | some name => ALLOWED_FUNCTIONS.contains name
        | none => false) &&
       goodN allowed true fn && goodL allowed args) := rfl

theorem goodN_conditional (allowed : List Str) (fnPos : Bool) (c t f : MathNode) :
    goodN allowed fnPos (conditionalNode c t f) =
      (goodN allowed false c && goodN allowed false t && goodN allowed false f) := rfl

mutual

theorem vNode_none_iff (allowed : List Str) (fnPos : Bool) (n : MathNode) :
    vNode allowed fnPos n = none ↔ goodN allowed fnPos n = true := by
  cases n with
  | constantNode v => simp [vNode_constant, goodN_constant]
  | symbolNode name =>
    rw [vNode_symbol, goodN_symbol]
    cases fnPos <;> by_cases hc : allowed.contains name <;> simp [hc]
  | parenthesisNode content =>
    rw [vNode_paren, goodN_paren]
    exact vNode_none_iff allowed false content
  | operatorNode fn op args =>
    rw [vNode_operator, goodN_operator]
    exact vList_none_iff allowed args
  | functionNode fn args =>
    rw [vNode_function, goodN_function]
    cases hf : fnNameOf fn with
    | none => simp
    | some name =>
      by_cases ha : name ∈ ALLOWED_FUNCTIONS
      · simp [ha, orO_eq_none, vNode_none_iff allowed true fn,
          vList_none_iff allowed args, Bool.and_assoc, and_assoc]
      · simp [ha]
  | conditionalNode c t f =>
    rw [vNode_conditional, goodN_conditional]
    simp [orO_eq_none, vNode_none_iff allowed false c,
      vNode_none_iff allowed false t, vNode_none_iff allowed false f,
      Bool.and_assoc, and_assoc]
  | assignmentNode a b =>
    simp [show vNode allowed fnPos (assignmentNode a b) = some (blockedMsg "AssignmentNode".data) from rfl,
      show goodN allowed fnPos (assignmentNode a b) = false from rfl]
  | functionAssignmentNode a b =>
    simp [show vNode allowed fnPos (functionAssignmentNode a b) = some (blockedMsg "FunctionAssignmentNode".data) from rfl,
      show goodN allowed fnPos (functionAssignmentNode a b) = false from rfl]
  | accessorNode a b =>
    simp [show vNode allowed fnPos (accessorNode a b) = some (blockedMsg "AccessorNode".data) from rfl,
      show goodN allowed fnPos (accessorNode a b) = false from rfl]
  | indexNode a =>
    simp [show vNode allowed fnPos (indexNode a) = some (blockedMsg "IndexNode".data) from rfl,
      show goodN allowed fnPos (indexNode a) = false from rfl]
  | rangeNode a b =>
    simp [show vNode allowed fnPos (rangeNode a b) = some (blockedMsg "RangeNode".data) from rfl,
      show goodN allowed fnPos (rangeNode a b) = false from rfl]
  | objectNode a =>
    simp [show vNode allowed fnPos (objectNode a) = some (blockedMsg "ObjectNode".data) from rfl,
      show goodN allowed fnPos (objectNode a) = false from rfl]
  | arrayNode a =>
    simp [show vNode allowed fnPos (arrayNode a) = some (blockedMsg "ArrayNode".data) from rfl,
      show goodN allowed fnPos (arrayNode a) = false from rfl]
  | blockNode a =>
    simp [show vNode allowed fnPos (blockNode a) = some (blockedMsg "BlockNode".data) from rfl,
      show goodN allowed fnPos (blockNode a) = false from rfl]

theorem vList_none_iff (allowed : List Str) (l : List MathNode) :
    vList allowed l = none ↔ goodL allowed l = true := by
  cases l with
  | nil => simp [vList, goodL]
  | cons h t =>
    show orO (vNode allowed false h) (vList allowed t) = none ↔
      (goodN allowed false h && goodL allowed t) = true
    simp only [orO_eq_none, Bool.and_eq_true]
    exact and_congr (vNode_none_iff allowed false h) (vList_none_iff allowed t)

end


theorem orO_some {a b : Option Str} {e : Str} (h : orO a b = some e) :
    a = some e ∨ (a = none ∧ b = some e) := by
  cases a with
  | some e1 => simp [orO] at h; exact Or.inl (by rw [h])
  | none => exact Or.inr ⟨rfl, h⟩

mutual

theorem vNode_some_shape (allowed : List Str) (fnPos : Bool) (n : MathNode)
    (e : Str) (h : vNode allowed fnPos n = some e) :
    (∃ ty, e = blockedMsg ty) ∨ (∃ nm, e = fnMsg nm) ∨
      (∃ nm, e = symMsg nm allowed) := by
  cases n with
  | constantNode v => rw [vNode_constant] at h; exact absurd h (by simp)
  | symbolNode name =>
    rw [vNode_symbol] at h
    cases fnPos with
    | true => simp at h
    | false =>
      by_cases hc : name ∈ allowed
      · simp [hc] at h
      · simp [hc] at h
        exact Or.inr (Or.inr ⟨name, h.symm⟩)
  | parenthesisNode content =>
    rw [vNode_paren] at h
    exact vNode_some_shape allowed false content e h
  | operatorNode fn op args =>
    rw [vNode_operator] at h
    exact vList_some_shape allowed args e h
  | functionNode fn args =>
    cases hf : fnNameOf fn with
    | none =>
      replace h : some (fnMsg "unknown".data) = some e := by
        rw [vNode_function, hf] at h
        exact h
      exact Or.inr (Or.inl ⟨"unknown".data, (Option.some_inj.mp h).symm⟩)
    | some name =>
      replace h : (if ALLOWED_FUNCTIONS.contains name then
          orO (vNode allowed true fn) (vList allowed args)
        else some (fnMsg name)) = some e := by
        rw [vNode_function, hf] at h
        exact h
      by_cases ha : ALLOWED_FUNCTIONS.contains name
      · rw [if_pos ha] at h
        rcases orO_some h with h1 | ⟨_, h2⟩
        · exact vNode_some_shape allowed true fn e h1
        · exact vList_some_shape allowed args e h2
      · rw [if_neg ha] at h
        exact Or.inr (Or.inl ⟨name, (Option.some_inj.mp h).symm⟩)
  | conditionalNode c t f =>
    rw [vNode_conditional] at h
    rcases orO_some h with h1 | ⟨_, h2⟩
    · exact vNode_some_shape allowed false c e h1
    · rcases orO_some h2 with h3 | ⟨_, h4⟩
      · exact vNode_some_shape allowed false t e h3
      · exact vNode_some_shape allowed false f e h4
  | assignmentNode a b =>
    exact Or.inl ⟨"AssignmentNode".data, (Option.some_inj.mp h.symm)⟩
  | functionAssignmentNode a b =>
    exact Or.inl ⟨"FunctionAssignmentNode".data, (Option.some_inj.mp h.symm)⟩
  | accessorNode a b =>
    exact Or.inl ⟨"AccessorNode".data, (Option.some_inj.mp h.symm)⟩
  | indexNode a =>
    exact Or.inl ⟨"IndexNode".data, (Option.some_inj.mp h.symm)⟩
  | rangeNode a b =>
    exact Or.inl ⟨"RangeNode".data, (Option.some_inj.mp h.symm)⟩
  | objectNode a =>
    exact Or.inl ⟨"ObjectNode".data, (Option.some_inj.mp h.symm)⟩
  | arrayNode a =>
    exact Or.inl ⟨"ArrayNode".data, (Option.some_inj.mp h.symm)⟩
  | blockNode a =>
    exact Or.inl ⟨"BlockNode".data, (Option.some_inj.mp h.symm)⟩

theorem vList_some_shape (allowed : List Str) (l : List MathNode)
    (e : Str) (h : vList allowed l = some e) :
    (∃ ty, e = blockedMsg ty) ∨ (∃ nm, e = fnMsg nm) ∨
      (∃ nm, e = symMsg nm allowed) := by
  cases l with
  | nil => simp [vList] at h
  | cons hd t =>
    replace h : orO (vNode allowed false hd) (vList allowed t) = some e := h
    rcases orO_some h with h1 | ⟨_, h2⟩
    · exact vNode_some_shape allowed false hd e h1
    · exact vList_some_shape allowed t e h2

end

mutual

theorem goodN_no_blocked (allowed : List Str) (fnPos : Bool) (n : MathNode)
    (h : goodN allowed fnPos n = true) : containsBlocked n = false := by
  cases n with
  | constantNode v => rfl
  | symbolNode name => rfl
  | parenthesisNode content =>
    rw [goodN_paren] at h
    show (false || containsBlocked content) = false
    simp [goodN_no_blocked allowed false content h]
  | operatorNode fn op args =>
    rw [goodN_operator] at h
    show (false || containsBlockedL args) = false
    simp [goodL_no_blocked allowed args h]
  | functionNode fn args =>
    rw [goodN_function] at h
    simp only [Bool.and_eq_true] at h
    show (false || (containsBlocked fn || containsBlockedL args)) = false
    simp [goodN_no_blocked allowed true fn h.1.2, goodL_no_blocked allowed args h.2]
  | conditionalNode c t f =>
    rw [goodN_conditional] at h
    simp only [Bool.and_eq_true] at h
    show (false || (containsBlocked c || containsBlocked t || containsBlocked f)) = false
    simp [goodN_no_blocked allowed false c h.1.1,
      goodN_no_blocked allowed false t h.1.2, goodN_no_blocked allowed false f h.2]
  | assignmentNode a b =>
    exact absurd h (by rw [show goodN allowed fnPos (assignmentNode a b) = false from rfl]; simp)
  | functionAssignmentNode a b =>
    exact absurd h (by rw [show goodN allowed fnPos (functionAssignmentNode a b) = false from rfl]; simp)
  | accessorNode a b =>
    exact absurd h (by rw [show goodN allowed fnPos (accessorNode a b) = false from rfl]; simp)
  | indexNode a =>
    exact absurd h (by rw [show goodN allowed fnPos (indexNode a) = false from rfl]; simp)
  | rangeNode a b =>
    exact absurd h (by rw [show goodN allowed fnPos (rangeNode a b) = false from rfl]; simp)
  | objectNode a =>
    exact absurd h (by rw [show goodN allowed fnPos (objectNode a) = false from rfl]; simp)
  | arrayNode a =>
    exact absurd h (by rw [show goodN allowed fnPos (arrayNode a) = false from rfl]; simp)
  | blockNode a =>
    exact absurd h (by rw [show goodN allowed fnPos (blockNode a) = false from rfl]; simp)

theorem goodL_no_blocked (allowed : List Str) (l : List MathNode)
    (h : goodL allowed l = true) : containsBlockedL l = false := by
  cases l with
  | nil => rfl
  | cons hd t =>
    replace h : (goodN allowed false hd && goodL allowed t) = true := h
    simp only [Bool.and_eq_true] at h
    show (containsBlocked hd || containsBlockedL t) = false
    simp [goodN_no_blocked allowed false hd h.1, goodL_no_blocked allowed t h.2]

end


/-! ## Lemmas about normalisation and the preparers -/

theorem dropWhile_ws_append (l r : Str)
    (hl : l.dropWhile Char.isWhitespace = l) (hne : l ≠ []) :
    (l ++ r).dropWhile Char.isWhitespace = l ++ r := by
  cases l with
  | nil => exact absurd rfl hne
  | cons c cs =>
    have hc : ¬(Char.isWhitespace c = true) := by
      intro hw
      rw [List.dropWhile_cons_of_pos hw] at hl
      have := (List.dropWhile_sublist (l := cs) Char.isWhitespace).length_le
      rw [hl] at this
      simp at this
    rw [List.cons_append, List.dropWhile_cons_of_neg hc]

theorem trimStr_eq_self (t : Str) (h4 : t.dropWhile Char.isWhitespace = t)
    (h5 : t.reverse.dropWhile Char.isWhitespace = t.reverse) : trimStr t = t := by
  unfold trimStr
  rw [h4, h5, List.reverse_reverse]

theorem trimStr_yForm (t : Str) (h1 : t ≠ [])
    (h5 : t.reverse.dropWhile Char.isWhitespace = t.reverse) :
    trimStr ("y = ".data ++ t) = "y = ".data ++ t := by
  unfold trimStr
  have ha : ("y = ".data ++ t).dropWhile Char.isWhitespace = "y = ".data ++ t := by
    rw [show ("y = ".data ++ t) = 'y' :: (" = ".data ++ t) from rfl]
    rw [List.dropWhile_cons_of_neg (by decide)]
  rw [ha, List.reverse_append]
  rw [dropWhile_ws_append t.reverse _ h5 (by simpa using h1)]
  rw [List.reverse_append, List.reverse_reverse]
  simp

theorem replaceStars_yForm (t : Str) (h6 : replaceStars t = t) :
    replaceStars ("y = ".data ++ t) = "y = ".data ++ t := by
  show replaceStars ('y' :: ' ' :: '=' :: ' ' :: t) = 'y' :: ' ' :: '=' :: ' ' :: t
  rw [replaceStars, if_neg (by simp), replaceStars, if_neg (by simp),
    replaceStars, if_neg (by simp), replaceStars, if_neg (by simp), h6]

theorem lnRewrite_yForm (t : Str) (h7 : lnRewrite false t = t) :
    lnRewrite false ("y = ".data ++ t) = "y = ".data ++ t := by
  show lnRewrite false ('y' :: ' ' :: '=' :: ' ' :: t) = 'y' :: ' ' :: '=' :: ' ' :: t
  rw [lnRewrite, if_neg (by simp), lnRewrite, if_neg (by simp),
    lnRewrite, if_neg (by simp), lnRewrite, if_neg (by simp)]
  show _ :: _ :: _ :: _ :: lnRewrite false t = _
  rw [h7]

theorem normalizeInput_yForm (t : Str) (h1 : t ≠ [])
    (h5 : t.reverse.dropWhile Char.isWhitespace = t.reverse)
    (h6 : replaceStars t = t) (h7 : lnRewrite false t = t) :
    normalizeInput ("y = ".data ++ t) = "y = ".data ++ t := by
  unfold normalizeInput
  rw [trimStr_yForm t h1 h5, replaceStars_yForm t h6, lnRewrite_yForm t h7]

theorem normalizeInput_eq_self (t : Str)
    (h4 : t.dropWhile Char.isWhitespace = t)
    (h5 : t.reverse.dropWhile Char.isWhitespace = t.reverse)
    (h6 : replaceStars t = t) (h7 : lnRewrite false t = t) :
    normalizeInput t = t := by
  unfold normalizeInput
  rw [trimStr_eq_self t h4 h5, h6, h7]

theorem splitOnEq_no_eq (t : Str) (h2 : '=' ∉ t) : splitOnEq t = [t] := by
  induction t with
  | nil => rfl
  | cons c cs ih =>
    simp only [List.mem_cons, not_or] at h2
    rw [splitOnEq, if_neg (fun hc => h2.1 hc.symm), ih h2.2]

theorem splitOnEq_yForm (t : Str) (h2 : '=' ∉ t) :
    splitOnEq ("y = ".data ++ t) = ["y ".data, ' ' :: t] := by
  show splitOnEq ('y' :: ' ' :: '=' :: ' ' :: t) = _
  rw [splitOnEq, if_neg (by decide), splitOnEq, if_neg (by decide),
    splitOnEq, if_pos rfl, splitOnEq, if_neg (by decide), splitOnEq_no_eq t h2]

theorem trimStr_cons_space (t : Str)
    (h4 : t.dropWhile Char.isWhitespace = t)
    (h5 : t.reverse.dropWhile Char.isWhitespace = t.reverse) :
    trimStr (' ' :: t) = t := by
  unfold trimStr
  rw [List.dropWhile_cons_of_pos (by decide), h4, h5, List.reverse_reverse]

theorem normalizeInput_of_ws (raw : Str)
    (h : ∀ c ∈ raw, Char.isWhitespace c = true) : normalizeInput raw = [] := by
  have ht : trimStr raw = [] := by
    unfold trimStr
    rw [List.dropWhile_eq_nil_iff.mpr h]
    rfl
  unfold normalizeInput
  rw [ht]
  rw [show replaceStars [] = [] from by rw [replaceStars]]
  rw [show lnRewrite false [] = [] from by rw [lnRewrite]]


theorem prepareExplicit_mode (caps : MathCaps) (input : Str) :
    (prepareExplicit caps input).mode = .explicit := by
  rcases hp : caps.parse input with m | node
  · simp [prepareExplicit, hp]
  · rcases hv : validateNode node BASE_ALLOWED_SYMBOLS with _ | e <;>
      simp [prepareExplicit, hp, hv]

theorem prepareExplicit_inv (caps : MathCaps) (input : Str) :
    ((prepareExplicit caps input).evaluator.isSome = true ∧
      (prepareExplicit caps input).node.isSome = true) ↔
      (prepareExplicit caps input).error = none := by
  rcases hp : caps.parse input with m | node
  · simp [prepareExplicit, hp]
  · rcases hv : validateNode node BASE_ALLOWED_SYMBOLS with _ | e <;>
      simp [prepareExplicit, hp, hv]

theorem prepareImplicit_mode (caps : MathCaps) (input left right : Str) :
    (prepareImplicit caps input left right).mode = .implicit := by
  rcases hp : caps.parse (implicitText left right) with m | node
  · simp [prepareImplicit, hp]
  · rcases hv : validateNode node IMPLICIT_ALLOWED_SYMBOLS with _ | e <;>
      simp [prepareImplicit, hp, hv]

theorem prepareImplicit_inv (caps : MathCaps) (input left right : Str) :
    ((prepareImplicit caps input left right).implicitEvaluator.isSome = true ∧
      (prepareImplicit caps input left right).node.isSome = true) ↔
      (prepareImplicit caps input left right).error = none := by
  rcases hp : caps.parse (implicitText left right) with m | node
  · simp [prepareImplicit, hp]
  · rcases hv : validateNode node IMPLICIT_ALLOWED_SYMBOLS with _ | e <;>
      simp [prepareImplicit, hp, hv]

theorem relevantEvalSome_of_explicit (r : PreparedMath) (h : r.mode = .explicit) :
    relevantEvalSome r = r.evaluator.isSome := by
  unfold relevantEvalSome
  rw [h]

theorem relevantEvalSome_of_implicit (r : PreparedMath) (h : r.mode = .implicit) :
    relevantEvalSome r = r.implicitEvaluator.isSome := by
  unfold relevantEvalSome
  rw [h]

theorem prepareMath_cases (caps : MathCaps) (raw : Str)
    (h : normalizeInput raw ≠ []) :
    (∃ input, prepareMath caps raw = prepareExplicit caps input) ∨
    (∃ input left right, prepareMath caps raw = prepareImplicit caps input left right) ∨
    ((prepareMath caps raw).error.isSome = true ∧
      (prepareMath caps raw).evaluator = none ∧
      (prepareMath caps raw).implicitEvaluator = none ∧
      (prepareMath caps raw).node = none ∧
      (prepareMath caps raw).mode = .implicit) := by
  simp only [prepareMath, if_neg h]
  split
  next l0 r0 hsp =>
    by_cases he : trimStr l0 = [] ∨ trimStr r0 = []
    · rw [if_pos he]
      exact Or.inr (Or.inr ⟨rfl, rfl, rfl, rfl, rfl⟩)
    · rw [if_neg he]
      by_cases hy1 : trimStr l0 = "y".data ∧ matchWordY false (trimStr r0) = false
      · rw [if_pos hy1]
        exact Or.inl ⟨_, rfl⟩
      · rw [if_neg hy1]
        by_cases hy2 : trimStr r0 = "y".data ∧ matchWordY false (trimStr l0) = false
        · rw [if_pos hy2]
          exact Or.inl ⟨_, rfl⟩
        · rw [if_neg hy2]
          exact Or.inr (Or.inl ⟨_, _, _, rfl⟩)
  next =>
    exact Or.inr (Or.inr ⟨rfl, rfl, rfl, rfl, rfl⟩)
  next =>
    exact Or.inl ⟨_, rfl⟩

theorem prepareMath_inv (caps : MathCaps) (raw : Str)
    (h : normalizeInput raw ≠ []) :
    ((relevantEvalSome (prepareMath caps raw) = true ∧
      (prepareMath caps raw).node.isSome = true) ↔
      (prepareMath caps raw).error = none) := by
  rcases prepareMath_cases caps raw h with ⟨input, he⟩ | ⟨input, left, right, hi⟩ | ⟨h1, _, _, h4, h5⟩
  · rw [he, relevantEvalSome_of_explicit _ (prepareExplicit_mode caps input)]
    exact prepareExplicit_inv caps input
  · rw [hi, relevantEvalSome_of_implicit _ (prepareImplicit_mode caps input left right)]
    exact prepareImplicit_inv caps input left right
  · rw [relevantEvalSome_of_implicit _ h5, h4]
    constructor
    · intro hc
      simp at hc
    · intro hc
      rw [hc] at h1
      simp at h1

theorem prepareMath3D_inv (caps : MathCaps) (raw : Str)
    (h : normalizeInput raw ≠ []) :
    (((prepareMath3D caps raw).evaluator.isSome = true ∧
      (prepareMath3D caps raw).node.isSome = true) ↔
      (prepareMath3D caps raw).error = none) := by
  by_cases heq : '=' ∈ normalizeInput raw
  · simp [prepareMath3D, if_neg h, heq]
  · rcases hp : caps.parse (normalizeInput raw) with m | node
    · simp [prepareMath3D, if_neg h, heq, hp]
    · rcases hv : validateNode node ALLOWED_SYMBOLS_3D with _ | e <;>
        simp [prepareMath3D, if_neg h, heq, hp, hv]

theorem prepareExplicit_node (caps : MathCaps) (input : Str) (ast : MathNode)
    (h : (prepareExplicit caps input).node = some ast) :
    validateNode ast BASE_ALLOWED_SYMBOLS = none := by
  rcases hp : caps.parse input with m | node
  · simp [prepareExplicit, hp] at h
  · rcases hv : validateNode node BASE_ALLOWED_SYMBOLS with _ | e
    · simp [prepareExplicit, hp, hv] at h
      rw [← h]
      exact hv
    · simp [prepareExplicit, hp, hv] at h

theorem prepareImplicit_node (caps : MathCaps) (input left right : Str) (ast : MathNode)
    (h : (prepareImplicit caps input left right).node = some ast) :
    validateNode ast IMPLICIT_ALLOWED_SYMBOLS = none := by
  rcases hp : caps.parse (implicitText left right) with m | node
  · simp [prepareImplicit, hp] at h
  · rcases hv : validateNode node IMPLICIT_ALLOWED_SYMBOLS with _ | e
    · simp [prepareImplicit, hp, hv] at h
      rw [← h]
      exact hv
    · simp [prepareImplicit, hp, hv] at h

theorem prepareMath_node_good (caps : MathCaps) (raw : Str) (ast : MathNode)
    (h : (prepareMath caps raw).node = some ast) : containsBlocked ast = false := by
  by_cases hn : normalizeInput raw = []
  · unfold prepareMath at h
    rw [if_pos hn] at h
    simp at h
  · rcases prepareMath_cases caps raw hn with ⟨input, he⟩ | ⟨input, left, right, hi⟩ | ⟨_, _, _, h4, _⟩
    · rw [he] at h
      have hv := prepareExplicit_node caps input ast h
      exact goodN_no_blocked BASE_ALLOWED_SYMBOLS false ast
        ((vNode_none_iff BASE_ALLOWED_SYMBOLS false ast).mp hv)
    · rw [hi] at h
      have hv := prepareImplicit_node caps input left right ast h
      exact goodN_no_blocked IMPLICIT_ALLOWED_SYMBOLS false ast
        ((vNode_none_iff IMPLICIT_ALLOWED_SYMBOLS false ast).mp hv)
    · rw [h4] at h
      simp at h

theorem prepareMath_yForm (caps : MathCaps) (t : Str) (h1 : t ≠ [])
    (h2 : '=' ∉ t) (h3 : matchWordY false t = false)
    (h4 : t.dropWhile Char.isWhitespace = t)
    (h5 : t.reverse.dropWhile Char.isWhitespace = t.reverse)
    (h6 : replaceStars t = t) (h7 : lnRewrite false t = t) :
    prepareMath caps ("y = ".data ++ t) = prepareMath caps t := by
  have hn1 := normalizeInput_yForm t h1 h5 h6 h7
  have hn2 := normalizeInput_eq_self t h4 h5 h6 h7
  have hR : prepareMath caps t = prepareExplicit caps t := by
    simp only [prepareMath, hn2, splitOnEq_no_eq t h2, if_neg h1]
  have hL : prepareMath caps ("y = ".data ++ t) = prepareExplicit caps t := by
    have hne1 : ¬("y = ".data ++ t = []) := by simp
    simp only [prepareMath, hn1, splitOnEq_yForm t h2, if_neg hne1]
    rw [trimStr_cons_space t h4 h5, show trimStr "y ".data = "y".data from rfl]
    rw [if_neg (by simp [h1]), if_pos ⟨rfl, h3⟩]
  rw [hL, hR]

/-! ## Lemmas about the curve sampler -/

theorem mem_closeSeg {segs : List (List Pt)} {cur s : List Pt}
    (h : s ∈ closeSeg segs cur) : s ∈ segs ∨ (s = cur ∧ 2 ≤ cur.length) := by
  unfold closeSeg at h
  split at h
  next hlen =>
    rcases List.mem_append.mp h with h1 | h2
    · exact Or.inl h1
    · simp at h2
      exact Or.inr ⟨h2, hlen⟩
  next => exact Or.inl h

theorem sampleStep_inv (evaluator : ℚ → Option ℚ) (xMin xMax : ℚ) (n : ℕ)
    (thr maxAbsY : ℚ) (st : SState) (i : ℕ) (hi : i ≤ n)
    (h : SInv evaluator xMin xMax n thr maxAbsY st) :
    SInv evaluator xMin xMax n thr maxAbsY
      (sampleStep evaluator xMin xMax n thr maxAbsY st i) := by
  obtain ⟨hsegs, hcur, hchain, hprev⟩ := h
  have hclose : ∀ s ∈ closeSeg st.segments st.current,
      2 ≤ s.length ∧ (∀ p ∈ s, goodPt evaluator xMin xMax n maxAbsY p) ∧
        List.Chain' (jumpRel thr) s := by
    intro s hs
    rcases mem_closeSeg hs with h1 | ⟨rfl, hlen⟩
    · exact hsegs s h1
    · exact ⟨hlen, hcur, hchain⟩
  rcases hev : evaluator (gridX xMin xMax n i) with _ | y
  · simp only [sampleStep, hev]
    exact ⟨hclose, by simp, List.chain'_nil, by simp⟩
  · simp only [sampleStep, hev]
    by_cases hcut : maxAbsY < |y|
    · rw [if_pos hcut]
      exact ⟨hclose, by simp, List.chain'_nil, by simp⟩
    · rw [if_neg hcut]
      have hgood : goodPt evaluator xMin xMax n maxAbsY ⟨gridX xMin xMax n i, y⟩ :=
        ⟨i, hi, rfl, hev, le_of_not_lt hcut⟩
      rcases hpv : st.prevY with _ | py
      · rw [hpv] at hprev
        have hc0 : st.current = [] := by
          rcases hcc : st.current.getLast? with _ | q
        
          · exact List.getLast?_eq_none_iff.mp hcc
          · rw [hcc] at hprev
            simp at hprev
        refine ⟨hsegs, ?_, ?_, ?_⟩
        · intro p hp
          rw [hc0] at hp
          simp at hp
          rw [hp]
          exact hgood
        · rw [hc0]
          exact List.chain'_singleton _
        · rw [hc0]
          rfl
      · rw [hpv] at hprev
        show SInv evaluator xMin xMax n thr maxAbsY
          (if thr < |y - py| then
            ⟨closeSeg st.segments st.current, [⟨gridX xMin xMax n i, y⟩], some y⟩
          else ⟨st.segments, st.current ++ [⟨gridX xMin xMax n i, y⟩], some y⟩)
        by_cases hj : thr < |y - py|
        · rw [if_pos hj]
          refine ⟨hclose, ?_, List.chain'_singleton _, by simp⟩
          intro p hp
          simp at hp
          rw [hp]
          exact hgood
        · rw [if_neg hj]
          obtain ⟨q, hq, hqy⟩ : ∃ q, st.current.getLast? = some q ∧ q.y = py := by
            rcases hcc : st.current.getLast? with _ | q
            · rw [hcc] at hprev
              simp at hprev
            · rw [hcc] at hprev
              simp at hprev
              exact ⟨q, rfl, hprev.symm⟩
          refine ⟨hsegs, ?_, ?_, ?_⟩
          · intro p hp
            rcases List.mem_append.mp hp with h1 | h2
            · exact hcur p h1
            · simp at h2
              rw [h2]
              exact hgood
          · rw [List.chain'_append]
            refine ⟨hchain, List.chain'_singleton _, ?_⟩
            intro p1 hp1 p2 hp2
            have hp1' : p1 = q := by
              rw [hq] at hp1
              simp [eq_comm] at hp1
              exact hp1.symm
            have hp2' : p2 = (⟨gridX xMin xMax n i, y⟩ : Pt) := by
              simp [eq_comm] at hp2
              exact hp2
            rw [hp1', hp2']
            show |y - q.y| ≤ thr
            rw [hqy]
            exact le_of_not_lt hj
          · rw [List.getLast?_concat]
            rfl

theorem foldl_sampleStep_inv (evaluator : ℚ → Option ℚ) (xMin xMax : ℚ) (n : ℕ)
    (thr maxAbsY : ℚ) (l : List ℕ) (hl : ∀ i ∈ l, i ≤ n) (st : SState)
    (h : SInv evaluator xMin xMax n thr maxAbsY st) :
    SInv evaluator xMin xMax n thr maxAbsY
      (l.foldl (sampleStep evaluator xMin xMax n thr maxAbsY) st) := by
  induction l generalizing st with
  | nil => exact h
  | cons i t ih =>
    exact ih (fun j hj => hl j (List.mem_cons_of_mem i hj)) _
      (sampleStep_inv evaluator xMin xMax n thr maxAbsY st i
        (hl i (List.mem_cons_self i t)) h)

theorem sampleExpression_inv (evaluator : ℚ → Option ℚ) (xMin xMax : ℚ)
    (samples : ℚ) (viewport : Viewport) (maxAbsY : ℚ) :
    ∀ s ∈ sampleExpression evaluator xMin xMax samples viewport maxAbsY,
      2 ≤ s.length ∧
      (∀ p ∈ s, goodPt evaluator xMin xMax (clampedSamples samples) maxAbsY p) ∧
      List.Chain' (jumpRel (jumpThreshold viewport)) s := by
  intro s hs
  simp only [sampleExpression] at hs
  have hinv := foldl_sampleStep_inv evaluator xMin xMax (clampedSamples samples)
    (jumpThreshold viewport) maxAbsY (List.range (clampedSamples samples + 1))
    (fun i hi => Nat.lt_succ_iff.mp (List.mem_range.mp hi)) ⟨[], [], none⟩
    ⟨by simp, by simp, List.chain'_nil, by simp⟩
  rcases mem_closeSeg hs with h1 | ⟨rfl, hlen⟩
  · exact hinv.1 s h1
  · exact ⟨hlen, hinv.2.1, hinv.2.2.1⟩

theorem segTotal_closeSeg (segs : List (List Pt)) (cur : List Pt) :
    segTotal (closeSeg segs cur) ≤ segTotal segs + cur.length := by
  unfold closeSeg
  split
  · simp [segTotal]
  · simp [segTotal]

theorem sampleStep_total (evaluator : ℚ → Option ℚ) (xMin xMax : ℚ) (n : ℕ)
    (thr maxAbsY : ℚ) (st : SState) (i : ℕ) :
    segTotal (sampleStep evaluator xMin xMax n thr maxAbsY st i).segments +
      (sampleStep evaluator xMin xMax n thr maxAbsY st i).current.length ≤
    segTotal st.segments + st.current.length + 1 := by
  have hc := segTotal_closeSeg st.segments st.current
  rcases hev : evaluator (gridX xMin xMax n i) with _ | y
  · simp only [sampleStep, hev]
    simpa using Nat.le_succ_of_le hc
  · simp only [sampleStep, hev]
    by_cases hcut : maxAbsY < |y|
    · rw [if_pos hcut]
      simpa using Nat.le_succ_of_le hc
    · rw [if_neg hcut]
      rcases hpv : st.prevY with _ | py
      · simp only [hpv]
        simp
        omega
      · simp only [hpv]
        show segTotal
            (if thr < |y - py| then
              (⟨closeSeg st.segments st.current, [⟨gridX xMin xMax n i, y⟩], some y⟩ : SState)
            else ⟨st.segments, st.current ++ [⟨gridX xMin xMax n i, y⟩], some y⟩).segments +
          (if thr < |y - py| then
              (⟨closeSeg st.segments st.current, [⟨gridX xMin xMax n i, y⟩], some y⟩ : SState)
            else ⟨st.segments, st.current ++ [⟨gridX xMin xMax n i, y⟩], some y⟩).current.length ≤
          segTotal st.segments + st.current.length + 1
        by_cases hj : thr < |y - py|
        · simp only [if_pos hj]
          simp
          omega
        · simp only [if_neg hj]
          simp
          omega

theorem foldl_sampleStep_total (evaluator : ℚ → Option ℚ) (xMin xMax : ℚ)
    (n : ℕ) (thr maxAbsY : ℚ) (l : List ℕ) (st : SState) :
    segTotal ((l.foldl (sampleStep evaluator xMin xMax n thr maxAbsY) st)).segments +
      (l.foldl (sampleStep evaluator xMin xMax n thr maxAbsY) st).current.length ≤
    segTotal st.segments + st.current.length + l.length := by
  induction l generalizing st with
  | nil => simp
  | cons i t ih =>
    calc segTotal ((t.foldl _ (sampleStep evaluator xMin xMax n thr maxAbsY st i))).segments +
          (t.foldl _ (sampleStep evaluator xMin xMax n thr maxAbsY st i)).current.length ≤
        segTotal (sampleStep evaluator xMin xMax n thr maxAbsY st i).segments +
          (sampleStep evaluator xMin xMax n thr maxAbsY st i).current.length + t.length :=
        ih _
      _ ≤ segTotal st.segments + st.current.length + 1 + t.length :=
        Nat.add_le_add_right (sampleStep_total evaluator xMin xMax n thr maxAbsY st i) _
      _ = segTotal st.segments + st.current.length + (i :: t).length := by
        simp [List.length_cons]
        omega

theorem sampleExpression_total (evaluator : ℚ → Option ℚ) (xMin xMax : ℚ)
    (samples : ℚ) (viewport : Viewport) (maxAbsY : ℚ) :
    segTotal (sampleExpression evaluator xMin xMax samples viewport maxAbsY) ≤
      clampedSamples samples + 1 := by
  simp only [sampleExpression]
  have hf := foldl_sampleStep_total evaluator xMin xMax (clampedSamples samples)
    (jumpThreshold viewport) maxAbsY (List.range (clampedSamples samples + 1))
    ⟨[], [], none⟩
  have hc := segTotal_closeSeg
    ((List.range (clampedSamples samples + 1)).foldl
      (sampleStep evaluator xMin xMax (clampedSamples samples)
        (jumpThreshold viewport) maxAbsY) ⟨[], [], none⟩).segments
    ((List.range (clampedSamples samples + 1)).foldl
      (sampleStep evaluator xMin xMax (clampedSamples samples)
        (jumpThreshold viewport) maxAbsY) ⟨[], [], none⟩).current
  simp [segTotal] at hf hc ⊢
  omega

theorem clampedSamples_ge (samples : ℚ) : 32 ≤ clampedSamples samples := by
  unfold clampedSamples
  have h1 : (32 : ℤ) ≤ max 32 (min 5000 (round samples)) := le_max_left _ _
  omega

theorem sample_run_all (evaluator : ℚ → Option ℚ) (xMin xMax : ℚ) (n : ℕ)
    (thr maxAbsY : ℚ) (f : ℕ → ℚ)
    (hf : ∀ i ≤ n, evaluator (gridX xMin xMax n i) = some (f i))
    (hcut : ∀ i ≤ n, |f i| ≤ maxAbsY)
    (hjump : ∀ i, i + 1 ≤ n → |f (i + 1) - f i| ≤ thr) :
    ∀ k, k ≤ n + 1 →
      (List.range k).foldl (sampleStep evaluator xMin xMax n thr maxAbsY)
          ⟨[], [], none⟩ =
        ⟨[], (List.range k).map (fun i => ⟨gridX xMin xMax n i, f i⟩),
          if k = 0 then none else some (f (k - 1))⟩ := by
  intro k
  induction k with
  | zero => intro _; simp
  | succ k ih =>
    intro hk
    have hkn : k ≤ n := Nat.lt_succ_iff.mp hk
    rw [List.range_succ, List.foldl_append, ih (Nat.le_succ_of_le hkn)]
    simp only [List.foldl_cons, List.foldl_nil]
    rcases Nat.eq_zero_or_pos k with rfl | hkpos
    · simp only [if_pos rfl]
      simp only [sampleStep, hf 0 (Nat.zero_le n)]
      rw [if_neg (not_lt.mpr (hcut 0 (Nat.zero_le n)))]
      simp [List.range_succ]
    · rw [if_neg (Nat.pos_iff_ne_zero.mp hkpos)]
      simp only [sampleStep, hf k hkn]
      rw [if_neg (not_lt.mpr (hcut k hkn))]
      have hj : |f k - f (k - 1)| ≤ thr := by
        have := hjump (k - 1) (by omega)
        rwa [Nat.sub_add_cancel hkpos] at this
      show (if thr < |f k - f (k - 1)| then _ else _) = _
      rw [if_neg (not_lt.mpr hj)]
      simp [List.range_succ]

theorem sampleExpression_all (evaluator : ℚ → Option ℚ) (xMin xMax : ℚ)
    (samples : ℚ) (viewport : Viewport) (maxAbsY : ℚ) (f : ℕ → ℚ)
    (hf : ∀ i ≤ clampedSamples samples,
      evaluator (gridX xMin xMax (clampedSamples samples) i) = some (f i))
    (hcut : ∀ i ≤ clampedSamples samples, |f i| ≤ maxAbsY)
    (hjump : ∀ i, i + 1 ≤ clampedSamples samples →
      |f (i + 1) - f i| ≤ jumpThreshold viewport) :
    sampleExpression evaluator xMin xMax samples viewport maxAbsY =
      [(List.range (clampedSamples samples + 1)).map
        (fun i => ⟨gridX xMin xMax (clampedSamples samples) i, f i⟩)] := by
  simp only [sampleExpression]
  rw [sample_run_all evaluator xMin xMax (clampedSamples samples)
    (jumpThreshold viewport) maxAbsY f hf hcut hjump (clampedSamples samples + 1)
    le_rfl]
  unfold closeSeg
  rw [if_pos]
  · simp
  · simp only [List.length_map, List.length_range]
    have := clampedSamples_ge samples
    omega

theorem sample_run_jumps (evaluator : ℚ → Option ℚ) (xMin xMax : ℚ) (n : ℕ)
    (thr maxAbsY : ℚ) (f : ℕ → ℚ)
    (hf : ∀ i ≤ n, evaluator (gridX xMin xMax n i) = some (f i))
    (hcut : ∀ i ≤ n, |f i| ≤ maxAbsY)
    (hjump : ∀ i, i + 1 ≤ n → thr < |f (i + 1) - f i|) :
    ∀ k, k ≤ n + 1 → 1 ≤ k →
      (List.range k).foldl (sampleStep evaluator xMin xMax n thr maxAbsY)
          ⟨[], [], none⟩ =
        ⟨[], [⟨gridX xMin xMax n (k - 1), f (k - 1)⟩], some (f (k - 1))⟩ := by
  intro k
  induction k with
  | zero => intro _ h1; omega
  | succ k ih =>
    intro hk _
    have hkn : k ≤ n := Nat.lt_succ_iff.mp hk
    rw [List.range_succ, List.foldl_append]
    rcases Nat.eq_zero_or_pos k with rfl | hkpos
    · simp only [List.range_zero, List.foldl_nil, List.foldl_cons]
      simp only [sampleStep, hf 0 (Nat.zero_le n)]
      rw [if_neg (not_lt.mpr (hcut 0 (Nat.zero_le n)))]
      simp
    · rw [ih (Nat.le_succ_of_le hkn) hkpos]
      simp only [List.foldl_cons, List.foldl_nil]
      simp only [sampleStep, hf k hkn]
      rw [if_neg (not_lt.mpr (hcut k hkn))]
      have hj : thr < |f k - f (k - 1)| := by
        have := hjump (k - 1) (by omega)
        rwa [Nat.sub_add_cancel hkpos] at this
      show (if thr < |f k - f (k - 1)| then _ else _) = _
      rw [if_pos hj]
      simp [closeSeg]

theorem sampleExpression_all_jumps (evaluator : ℚ → Option ℚ) (xMin xMax : ℚ)
    (samples : ℚ) (viewport : Viewport) (maxAbsY : ℚ) (f : ℕ → ℚ)
    (hf : ∀ i ≤ clampedSamples samples,
      evaluator (gridX xMin xMax (clampedSamples samples) i) = some (f i))
    (hcut : ∀ i ≤ clampedSamples samples, |f i| ≤ maxAbsY)
    (hjump : ∀ i, i + 1 ≤ clampedSamples samples →
      jumpThreshold viewport < |f (i + 1) - f i|) :
    sampleExpression evaluator xMin xMax samples viewport maxAbsY = [] := by
  simp only [sampleExpression]
  rw [sample_run_jumps evaluator xMin xMax (clampedSamples samples)
    (jumpThreshold viewport) maxAbsY f hf hcut hjump (clampedSamples samples + 1)
    le_rfl (by have := clampedSamples_ge samples; omega)]
  simp [closeSeg]

/-! ## The claims -/

/-- Counterexample to the claim C1 as stated: mathjs also produces
`ConditionalNode` (`a ? b : c`), which is neither a constant, symbol,
parenthesis/arithmetic operator nor a whitelisted call, yet it is not in
`BLOCKED_NODE_TYPES`, so the validator returns `null` on it. -/
theorem claim1_counterexample :
    validateNode
      (conditionalNode (constantNode "1".data) (constantNode "2".data)
        (constantNode "3".data)) BASE_ALLOWED_SYMBOLS = none ∧
    specAllowGood BASE_ALLOWED_SYMBOLS false
      (conditionalNode (constantNode "1".data) (constantNode "2".data)
        (constantNode "3".data)) = false := by
  exact ⟨rfl, rfl⟩

/-- C1 (amended): the Safety Validator returns `null` exactly when no node
is of a blocked structural kind, every called function name is a plain
symbol in the whitelist, and every symbol outside a function-name position
is in the allowed set; any non-null error string is one of the three
messages naming the offending node type, function name, or symbol. -/
theorem claim1_theorem (allowed : List Str) (n : MathNode) :
    (validateNode n allowed = none ↔ goodN allowed false n = true) ∧
    (∀ e, validateNode n allowed = some e →
      (∃ ty, e = blockedMsg ty) ∨ (∃ nm, e = fnMsg nm) ∨
        (∃ nm, e = symMsg nm allowed)) :=
  ⟨vNode_none_iff allowed false n, fun e h => vNode_some_shape allowed false n e h⟩

/-- Witness for C1 at concrete inputs: `x` validates, and the error for an
unknown function `foo` has the function-message shape. -/
theorem claim1_witness :
    validateNode (symbolNode "x".data) BASE_ALLOWED_SYMBOLS = none ∧
    ((∃ ty, fnMsg "foo".data = blockedMsg ty) ∨
     (∃ nm, fnMsg "foo".data = fnMsg nm) ∨
     (∃ nm, fnMsg "foo".data = symMsg nm BASE_ALLOWED_SYMBOLS)) := by
  constructor
  · exact (claim1_theorem BASE_ALLOWED_SYMBOLS (symbolNode "x".data)).1.mpr (by decide)
  · exact (claim1_theorem BASE_ALLOWED_SYMBOLS
      (functionNode (symbolNode "foo".data) [])).2 (fnMsg "foo".data) (by decide)

/-- Counterexample to the claim C2 as stated: the raw text `x=1` contains
an assignment, but `prepareMath` splits on `=` before parsing, treats it
as the implicit equation `(x) - (1) = 0`, and returns a null error with a
usable implicit evaluator. -/
theorem claim2_counterexample :
    (prepareMath capsParenSub "x=1".data).error = none ∧
    (prepareMath capsParenSub "x=1".data).implicitEvaluator.isSome = true := by
  have hval : validateNode xMinusOneNode IMPLICIT_ALLOWED_SYMBOLS = none := by decide
  constructor <;>
    simp +decide [prepareMath, prepareImplicit, implicitText, normalizeInput,
      trimStr, replaceStars, lnRewrite, lnTail, splitOnEq, matchWordY, wordChar,
      capsParenSub, hval]

/-- C2 (amended): array literals, indexing, and every other blocked
structural construct in a parsed AST always fail validation — `prepareMath`
never retains an AST containing a blocked node — but a bare `x=1` is split
at the `=` into an implicit equation before the parser ever sees an
assignment, and succeeds. -/
theorem claim2_theorem (caps : MathCaps) (raw : Str) (ast : MathNode)
    (h : (prepareMath caps raw).node = some ast) : containsBlocked ast = false :=
  prepareMath_node_good caps raw ast h

/-- Witness for C2: the AST retained for `x=1` contains no blocked node. -/
theorem claim2_witness : containsBlocked xMinusOneNode = false := by
  have hval : validateNode xMinusOneNode IMPLICIT_ALLOWED_SYMBOLS = none := by decide
  exact claim2_theorem capsParenSub "x=1".data xMinusOneNode (by
    simp +decide [prepareMath, prepareImplicit, implicitText, normalizeInput,
      trimStr, replaceStars, lnRewrite, lnTail, splitOnEq, matchWordY, wordChar,
      capsParenSub, hval])

/-- Counterexample to the claim C3 as stated: on empty input both the
error and the evaluator and node are null, so "evaluator and AST non-null
iff error null" fails. -/
theorem claim3_counterexample :
    ¬((relevantEvalSome (prepareMath trivialCaps "".data) = true ∧
        (prepareMath trivialCaps "".data).node.isSome = true) ↔
      (prepareMath trivialCaps "".data).error = none) := by
  have h : prepareMath trivialCaps "".data =
      ⟨.explicit, [], none, none, none, none, none⟩ := by
    simp +decide [prepareMath, normalizeInput, trimStr, replaceStars, lnRewrite]
  rw [h]
  simp [relevantEvalSome]

/-- C3 (amended): for every raw input whose normalised text is non-empty,
the mode-relevant evaluator closure and the retained AST node are both
non-null exactly when the error field is null, in both the 2D and the 3D
preparer. -/
theorem claim3_theorem (caps : MathCaps) (raw : Str)
    (h : normalizeInput raw ≠ []) :
    ((relevantEvalSome (prepareMath caps raw) = true ∧
        (prepareMath caps raw).node.isSome = true) ↔
      (prepareMath caps raw).error = none) ∧
    (((prepareMath3D caps raw).evaluator.isSome = true ∧
        (prepareMath3D caps raw).node.isSome = true) ↔
      (prepareMath3D caps raw).error = none) :=
  ⟨prepareMath_inv caps raw h, prepareMath3D_inv caps raw h⟩

/-- Witness for C3 at the concrete input `x=1`. -/
theorem claim3_witness :
    ((relevantEvalSome (prepareMath capsParenSub "x=1".data) = true ∧
        (prepareMath capsParenSub "x=1".data).node.isSome = true) ↔
      (prepareMath capsParenSub "x=1".data).error = none) ∧
    (((prepareMath3D capsParenSub "x=1".data).evaluator.isSome = true ∧
        (prepareMath3D capsParenSub "x=1".data).node.isSome = true) ↔
      (prepareMath3D capsParenSub "x=1".data).error = none) :=
  claim3_theorem capsParenSub "x=1".data
    (by simp +decide [normalizeInput, trimStr, replaceStars, lnRewrite, lnTail])

/-- C10: a raw input that is empty or whitespace-only makes both the 2D
and the 3D preparer return the inert record — error null, evaluator null,
AST node null — surfacing no error and producing no geometry. -/
theorem claim10_theorem (caps : MathCaps) (raw : Str)
    (h : ∀ c ∈ raw, Char.isWhitespace c = true) :
    prepareMath caps raw = ⟨.explicit, [], none, none, none, none, none⟩ ∧
    prepareMath3D caps raw = ⟨[], none, none, none, none⟩ := by
  have hn := normalizeInput_of_ws raw h
  constructor
  · simp [prepareMath, hn]
  · simp [prepareMath3D, hn]

/-- Witness for C10 at the whitespace input `"  "`. -/
theorem claim10_witness :
    prepareMath trivialCaps "  ".data = ⟨.explicit, [], none, none, none, none, none⟩ ∧
    prepareMath3D trivialCaps "  ".data = ⟨[], none, none, none, none⟩ :=
  claim10_theorem trivialCaps "  ".data (by decide)

/-- C4: the curve sampler emits only segments of at least two points;
every emitted point is an accepted sample — its abscissa lies on the
uniform grid of `clampedSamples` increments, the evaluator returns its
ordinate, and the ordinate's magnitude is within the cutoff — consecutive
points of one segment never jump by more than
`8 × max(1e-6, yMax - yMin)`, and in total at most `clampedSamples + 1`
candidate points are emitted. -/
theorem claim4_theorem (evaluator : ℚ → Option ℚ) (xMin xMax : ℚ)
    (samples : ℚ) (viewport : Viewport) (maxAbsY : ℚ) :
    (∀ s ∈ sampleExpression evaluator xMin xMax samples viewport maxAbsY,
      2 ≤ s.length ∧
      (∀ p ∈ s, goodPt evaluator xMin xMax (clampedSamples samples) maxAbsY p) ∧
      List.Chain' (jumpRel (jumpThreshold viewport)) s) ∧
    segTotal (sampleExpression evaluator xMin xMax samples viewport maxAbsY) ≤
      clampedSamples samples + 1 :=
  ⟨sampleExpression_inv evaluator xMin xMax samples viewport maxAbsY,
   sampleExpression_total evaluator xMin xMax samples viewport maxAbsY⟩

/-- Witness for C4: the constant evaluator over `[0,1]` produces a full
segment, which the theorem certifies has at least two points. -/
theorem claim4_witness :
    2 ≤ ((List.range (clampedSamples 32 + 1)).map
      (fun i => Pt.mk (gridX 0 1 (clampedSamples 32) i) 0)).length := by
  have hall : sampleExpression (fun _ => some 0) 0 1 32 ⟨-10, 10, -10, 10⟩ 1000000 =
      [(List.range (clampedSamples 32 + 1)).map
        (fun i => Pt.mk (gridX 0 1 (clampedSamples 32) i) 0)] :=
    sampleExpression_all (fun _ => some 0) 0 1 32 ⟨-10, 10, -10, 10⟩ 1000000
      (fun _ => 0) (fun i _ => rfl) (fun i _ => by norm_num)
      (fun i _ => by norm_num [jumpThreshold])
  exact ((claim4_theorem (fun _ => some 0) 0 1 32 ⟨-10, 10, -10, 10⟩ 1000000).1
    _ (by rw [hall]; exact List.mem_singleton_self _)).1

/-- C5: in one grid cell of the implicit contour extractor, exactly two
defined edge crossings produce exactly one two-point segment joining them;
exactly four crossings, with the evaluator defined at the cell centre, are
disambiguated by the centre value — crossings (0,3) and (1,2) joined when
it is positive, (0,1) and (2,3) otherwise (crossings ordered bottom,
right, top, left); and zero, one or three crossings produce nothing. -/
theorem claim5_theorem (evaluator : ℚ → ℚ → Option ℚ) (x0 x1 y0 y1 : ℚ)
    (v00 v10 v11 v01 : Option ℚ) :
    (∀ a b, cellCrossings x0 x1 y0 y1 v00 v10 v11 v01 = [a, b] →
      processCell evaluator x0 x1 y0 y1 v00 v10 v11 v01 = [[a, b]]) ∧
    (∀ a b c d cv, cellCrossings x0 x1 y0 y1 v00 v10 v11 v01 = [a, b, c, d] →
      evaluator ((x0 + x1) / 2) ((y0 + y1) / 2) = some cv →
      processCell evaluator x0 x1 y0 y1 v00 v10 v11 v01 =
        if 0 < cv then [[a, d], [b, c]] else [[a, b], [c, d]]) ∧
    ((cellCrossings x0 x1 y0 y1 v00 v10 v11 v01).length = 0 ∨
     (cellCrossings x0 x1 y0 y1 v00 v10 v11 v01).length = 1 ∨
     (cellCrossings x0 x1 y0 y1 v00 v10 v11 v01).length = 3 →
      processCell evaluator x0 x1 y0 y1 v00 v10 v11 v01 = []) := by
  refine ⟨?_, ?_, ?_⟩
  · intro a b hab
    unfold processCell
    rw [hab]
  · intro a b c d cv h4 hcv
    unfold processCell
    rw [h4]
    show (match evaluator ((x0 + x1) / 2) ((y0 + y1) / 2) with
      | some centerValue =>
        if 0 < centerValue then [[a, d], [b, c]] else [[a, b], [c, d]]
      | none => []) = _
    rw [hcv]
  · intro hlen
    unfold processCell
    rcases hc : cellCrossings x0 x1 y0 y1 v00 v10 v11 v01 with
      _ | ⟨a, _ | ⟨b, _ | ⟨c, _ | ⟨d, rest⟩⟩⟩⟩
    · rfl
    · rfl
    · rw [hc] at hlen
      simp at hlen
    · rfl
    · rcases rest with _ | ⟨e, rest2⟩
      · rw [hc] at hlen
        simp at hlen
      · rfl

/-- Witness for C5: a cell whose field is negative on the left vertices
and positive on the right ones has exactly two crossings, joined into one
segment. -/
theorem claim5_witness :
    processCell (fun _ _ => none) 0 1 0 1
      (some (-1)) (some 1) (some 1) (some (-1)) =
      [[⟨1/2, 0⟩, ⟨1/2, 1⟩]] := by
  have hc : cellCrossings 0 1 0 1 (some (-1)) (some 1) (some 1) (some (-1)) =
      [⟨1/2, 0⟩, ⟨1/2, 1⟩] := by
    norm_num [cellCrossings, edgeIntersection]
  exact (claim5_theorem (fun _ _ => none) 0 1 0 1
    (some (-1)) (some 1) (some 1) (some (-1))).1 _ _ hc

/-- C6: the 2D transpiler refuses `sin(x)` with a reason naming `sin`; the
3D transpiler converts `sin(x)` successfully with a `deg(...)` wrapper
around the argument; and `x^2` converts to a 2-argument `pow` call in both
modes, with no `^` in the output. -/
theorem claim6_theorem :
    Tikz.convertAstToTikz
        (some (functionNode (symbolNode "sin".data) [symbolNode "x".data])) =
      ⟨false, none,
        some "Trig/inverse trig export is emitted as coordinates for safety (sin).".data⟩ ∧
    strHas "sin".data
      "Trig/inverse trig export is emitted as coordinates for safety (sin).".data = true ∧
    Tikz3D.convertAstToTikz3D
        (some (functionNode (symbolNode "sin".data) [symbolNode "x".data])) =
      ⟨true, some "sin(deg(x))".data, none⟩ ∧
    strHas "deg(".data "sin(deg(x))".data = true ∧
    Tikz.convertAstToTikz
        (some (operatorNode "pow".data "^".data
          [symbolNode "x".data, constantNode "2".data])) =
      ⟨true, some "pow(\\x,2)".data, none⟩ ∧
    Tikz3D.convertAstToTikz3D
        (some (operatorNode "pow".data "^".data
          [symbolNode "x".data, constantNode "2".data])) =
      ⟨true, some "pow(x,2)".data, none⟩ ∧
    "pow(\\x,2)".data.contains '^' = false ∧
    "pow(x,2)".data.contains '^' = false := by
  decide

/-- C7: whenever `distanceFromCamera = distance - rotatedZ` is at most
0.08 the projector rejects the point outright (so no perspective division
happens), and any point it does return was projected with
`distanceFromCamera` strictly greater than 0.08 — in particular the
divisor is never zero and the returned coordinates are (exact rational,
hence finite) numbers, with the depth key equal to `rotatedZ`. -/
theorem claim7_theorem (vp : Viewport3D) (cosYaw sinYaw cosPitch sinPitch : ℚ)
    (width height x y z : ℚ) :
    (vp.distance - rotatedZ vp cosYaw sinYaw cosPitch sinPitch x y z ≤ 2 / 25 →
      createProjector vp cosYaw sinYaw cosPitch sinPitch width height x y z = none) ∧
    (∀ p, createProjector vp cosYaw sinYaw cosPitch sinPitch width height x y z = some p →
      2 / 25 < vp.distance - rotatedZ vp cosYaw sinYaw cosPitch sinPitch x y z ∧
      p.depth = rotatedZ vp cosYaw sinYaw cosPitch sinPitch x y z) := by
  constructor
  · intro h
    simp only [createProjector]
    rw [if_pos h]
  · intro p hp
    simp only [createProjector] at hp
    by_cases hd : vp.distance - rotatedZ vp cosYaw sinYaw cosPitch sinPitch x y z ≤ 2 / 25
    · rw [if_pos hd] at hp
      exact absurd hp (by simp)
    · rw [if_neg hd] at hp
      refine ⟨lt_of_not_le hd, ?_⟩
      rw [← Option.some_inj.mp hp]

/-- Witness for C7: with the camera at distance 1/20 ≤ 0.08 of the box
centre, the centre point is rejected. -/
theorem claim7_witness :
    createProjector ⟨-1, 1, -1, 1, -1, 1, 1/20⟩ 1 0 1 0 100 100 0 0 0 = none :=
  (claim7_theorem ⟨-1, 1, -1, 1, -1, 1, 1/20⟩ 1 0 1 0 100 100 0 0 0).1
    (by norm_num [rotatedZ])

/-- Counterexample to the claim C8 as stated: with `t` the empty
expression text, `"y = "` hits the empty-equation-side error (mode
implicit, non-null error) while preparing `""` directly is the inert blank
entry (mode explicit, null error), so the two do not behave identically. -/
theorem claim8_counterexample :
    (prepareMath trivialCaps "y = ".data).error ≠ none ∧
    (prepareMath trivialCaps "".data).error = none ∧
    (prepareMath trivialCaps "y = ".data).mode = .implicit ∧
    (prepareMath trivialCaps "".data).mode = .explicit := by
  refine ⟨?_, ?_, ?_, ?_⟩ <;>
    simp +decide [prepareMath, normalizeInput, trimStr, replaceStars,
      lnRewrite, lnTail, splitOnEq, matchWordY, wordChar]

/-- C8 (amended): for every non-empty, already-normalised expression text
`t` (trimmed, no `**` or `ln(` left to rewrite) that contains no `=` and
does not reference `y` as a standalone word, preparing `"y = " ++ t`
returns the very same `PreparedMath` record as preparing `t` directly —
same mode, error, typeset string, and evaluator. -/
theorem claim8_theorem (caps : MathCaps) (t : Str) (h1 : t ≠ [])
    (h2 : '=' ∉ t) (h3 : matchWordY false t = false)
    (h4 : t.dropWhile Char.isWhitespace = t)
    (h5 : t.reverse.dropWhile Char.isWhitespace = t.reverse)
    (h6 : replaceStars t = t) (h7 : lnRewrite false t = t) :
    prepareMath caps ("y = ".data ++ t) = prepareMath caps t :=
  prepareMath_yForm caps t h1 h2 h3 h4 h5 h6 h7

/-- Witness for C8 at the concrete text `x^2`. -/
theorem claim8_witness :
    prepareMath trivialCaps ("y = ".data ++ "x^2".data) =
      prepareMath trivialCaps "x^2".data :=
  claim8_theorem trivialCaps "x^2".data (by decide) (by decide) (by decide)
    (by decide) (by decide) (by simp +decide [replaceStars])
    (by simp +decide [lnRewrite, lnTail, wordChar])

/-- Counterexample to the claim C9 as stated: sampling `x²` over the
domain `[0, 320]` with 32 samples against the viewport
`[-10,10]×[-1,1]` yields no segment at all — every consecutive jump
exceeds the threshold, so every accepted point is a dropped singleton —
rather than one segment of `samples + 1` points. -/
theorem claim9_counterexample :
    sampleExpression (fun x => some (x * x)) 0 320 32 ⟨-10, 10, -1, 1⟩ 1000000 =
      [] := by
  have hn : clampedSamples 32 = 32 := by
    norm_num [clampedSamples, round_intCast]
    rfl
  have hg : ∀ i : ℕ, gridX 0 320 (clampedSamples 32) i = 10 * i := by
    intro i
    rw [hn]
    unfold gridX
    push_cast
    ring
  have hthr : jumpThreshold ⟨-10, 10, -1, 1⟩ = 16 := by
    norm_num [jumpThreshold]
  apply sampleExpression_all_jumps (fun x => some (x * x)) 0 320 32
    ⟨-10, 10, -1, 1⟩ 1000000
    (fun i => (10 * i : ℚ) * (10 * i : ℚ))
  · intro i _
    rw [hg i]
  · intro i hi
    rw [hn] at hi
    have hic : (i : ℚ) ≤ 32 := by exact_mod_cast hi
    have h0 : (0 : ℚ) ≤ 10 * i := by positivity
    rw [abs_of_nonneg (by positivity)]
    nlinarith
  · intro i hi
    rw [hthr]
    have h1 : (0 : ℚ) ≤ i := by positivity
    have habs : (10 * ((i : ℕ) + 1 : ℕ) : ℚ) * (10 * ((i : ℕ) + 1 : ℕ) : ℚ) -
        (10 * i : ℚ) * (10 * i : ℚ) = 100 * (2 * i + 1) := by
      push_cast
      ring
    rw [habs, abs_of_nonneg (by positivity)]
    nlinarith

/-- C9 (amended): for every domain, viewport and requested sample count
such that every sampled value of `x²` is within the cutoff and consecutive
sampled values differ by at most the jump threshold, sampling
`f(x) = x²` yields exactly one segment containing
`max(32, min(5000, round(samples))) + 1` points. -/
theorem claim9_theorem (xMin xMax samples : ℚ) (viewport : Viewport)
    (maxAbsY : ℚ)
    (hcut : ∀ i ≤ clampedSamples samples,
      |gridX xMin xMax (clampedSamples samples) i *
        gridX xMin xMax (clampedSamples samples) i| ≤ maxAbsY)
    (hjump : ∀ i, i + 1 ≤ clampedSamples samples →
      |gridX xMin xMax (clampedSamples samples) (i + 1) *
          gridX xMin xMax (clampedSamples samples) (i + 1) -
        gridX xMin xMax (clampedSamples samples) i *
          gridX xMin xMax (clampedSamples samples) i| ≤
        jumpThreshold viewport) :
    sampleExpression (fun x => some (x * x)) xMin xMax samples viewport maxAbsY =
      [(List.range (clampedSamples samples + 1)).map
        (fun i => ⟨gridX xMin xMax (clampedSamples samples) i,
          gridX xMin xMax (clampedSamples samples) i *
            gridX xMin xMax (clampedSamples samples) i⟩)] ∧
    ((List.range (clampedSamples samples + 1)).map
      (fun i => (⟨gridX xMin xMax (clampedSamples samples) i,
        gridX xMin xMax (clampedSamples samples) i *
          gridX xMin xMax (clampedSamples samples) i⟩ : Pt))).length =
      clampedSamples samples + 1 := by
  constructor
  · exact sampleExpression_all (fun x => some (x * x)) xMin xMax samples
      viewport maxAbsY
      (fun i => gridX xMin xMax (clampedSamples samples) i *
        gridX xMin xMax (clampedSamples samples) i)
      (fun i _ => rfl) hcut hjump
  · simp

/-- Witness for C9 over the domain `[0,1]` with 32 samples and the default
viewport: `x²` stays within the cutoff and jumps stay within the
threshold, so exactly one full segment is produced. -/
theorem claim9_witness :
    sampleExpression (fun x => some (x * x)) 0 1 32 ⟨-10, 10, -10, 10⟩ 1000000 =
      [(List.range (clampedSamples 32 + 1)).map
        (fun i => ⟨gridX 0 1 (clampedSamples 32) i,
          gridX 0 1 (clampedSamples 32) i * gridX 0 1 (clampedSamples 32) i⟩)] ∧
    ((List.range (clampedSamples 32 + 1)).map
      (fun i => (⟨gridX 0 1 (clampedSamples 32) i,
        gridX 0 1 (clampedSamples 32) i * gridX 0 1 (clampedSamples 32) i⟩ : Pt))).length =
      clampedSamples 32 + 1 := by
  have hn : clampedSamples 32 = 32 := by
    norm_num [clampedSamples, round_intCast]
    rfl
  have hg : ∀ i : ℕ, gridX 0 1 (clampedSamples 32) i = i / 32 := by
    intro i
    rw [hn]
    unfold gridX
    ring
  apply claim9_theorem 0 1 32 ⟨-10, 10, -10, 10⟩ 1000000
  · intro i hi
    rw [hn] at hi
    rw [hg i]
    have hic : (i : ℚ) ≤ 32 := by exact_mod_cast hi
    have h0 : (0 : ℚ) ≤ (i : ℚ) / 32 := by positivity
    rw [abs_of_nonneg (by positivity)]
    nlinarith
  · intro i hi
    rw [hn] at hi
    have hic : (i : ℚ) ≤ 32 := by exact_mod_cast (Nat.le_of_succ_le hi)
    rw [hg i, hg (i + 1)]
    have hthr : jumpThreshold ⟨-10, 10, -10, 10⟩ = 160 := by
      norm_num [jumpThreshold]
    rw [hthr]
    have habs : ((i + 1 : ℕ) : ℚ) / 32 * (((i + 1 : ℕ) : ℚ) / 32) -
        (i : ℚ) / 32 * ((i : ℚ) / 32) = (2 * i + 1) / 1024 := by
      push_cast
      ring
    rw [habs, abs_of_nonneg (by positivity)]
    nlinarith

end GraphToTex
